import Mathlib

/-! # tfsec: results, the block model and rule check functions

A shallow embedding of `pkg/result/result.go` and of rule check functions of
`internal/app/tfsec/rules`, over a model of the `block` package's
Block/Attribute navigation API.

Go pointers that may be nil (`*block.Block`, `*block.Attribute`) are `Option`s;
methods with a pointer receiver that update the receiver and return it
(`WithRange`, ...) are functions returning the updated record; a `result.Set`
is the list of results added so far, `Add` appending at the end.
-/

namespace Tfsec

/-! ## The block package (declared outside the rule sources) -/

namespace block

/-- Modelled from the spec: the `block.Range` struct, of which the sources
only use the type; a source span is a file with a start and an end line. The
zero value is the empty file name with both lines 0. -/
structure Range where
  Filename : String
  StartLine : Int
  EndLine : Int
  deriving DecidableEq, Repr

/-- Zero value of `Range`, written `Range{}` in Go. -/
def Range.zero : Range := ⟨"", 0, 0⟩

/-- Modelled from the spec: the resolved value of an attribute, a tagged
variant: absent / unknown / string / boolean / number / ordered list /
key-ordered map, the elements of a list or map being values again. Numbers are
arbitrary-precision, here rationals. -/
inductive Value where
  | absent
  | unknown
  | string (s : String)
  | bool (b : Bool)
  | number (q : Rat)
  | list (xs : List Value)
  | map (kvs : List (String × Value))

/-- The `cty` types the rules compare `Attribute.Type()` with; every type that
is none of `cty.String`, `cty.Bool`, `cty.Number` (collections, the nil type of
an absent or unknown value) is `other`. -/
inductive CtyType where
  | String
  | Bool
  | Number
  | other
  deriving DecidableEq, Repr

/-- Modelled from the spec: a named value within a block, with its resolved
value and its source range. -/
structure Attribute where
  name : String
  value : Value
  range : Range

/-- Modelled from the spec: a block has a kind, a type label, further instance
labels, a source range, a mapping from names to attributes (kept in source
order) and an ordered collection of child blocks. -/
inductive Block where
  | mk (kind : String) (typeLabel : String) (instanceLabels : List String)
      (sourceRange : Range) (attributes : List Attribute) (children : List Block)

/-- Kind of a block (for a child block, the name it is looked up by). -/
def Block.kind : Block → String
  | .mk k _ _ _ _ _ => k

/-- Type label of a block. -/
def Block.typeLabel : Block → String
  | .mk _ t _ _ _ _ => t

/-- Instance labels of a block. -/
def Block.instanceLabels : Block → List String
  | .mk _ _ l _ _ _ => l

/-- Source range of a block. -/
def Block.sourceRange : Block → Range
  | .mk _ _ _ r _ _ => r

/-- Attributes of a block, in source order. -/
def Block.attributes : Block → List Attribute
  | .mk _ _ _ _ a _ => a

/-- Direct child blocks, in source order. -/
def Block.children : Block → List Block
  | .mk _ _ _ _ _ c => c

/-- Modelled from the spec: `GetAttribute(name)`, the attribute of that name
or nil; on the absent block it is nil. -/
def Block.GetAttribute (b : Option Block) (name : String) : Option Attribute :=
  match b with
  | none => none
  | some b => b.attributes.find? (fun a => a.name == name)

/-- Modelled from the spec: `GetBlock(name)`, the first direct child block with
matching kind-name, or the absent block, through which further navigation
propagates. -/
def Block.GetBlock (b : Option Block) (name : String) : Option Block :=
  match b with
  | none => none
  | some b => b.children.find? (fun c => c.kind == name)

/-- Modelled from the spec: `GetBlocks(name)`, all matching direct children,
order preserved, possibly empty. -/
def Block.GetBlocks (b : Option Block) (name : String) : List Block :=
  match b with
  | none => []
  | some b => b.children.filter (fun c => c.kind == name)

/-- Modelled from the spec: `HasChild(name)`, a presence predicate; the rules
use it both for attributes (`performance_insights_enabled` in AWS053) and for
child blocks (`configuration` in AWS059). False on the absent block. -/
def Block.HasChild (b : Option Block) (childElement : String) : Bool :=
  match b with
  | none => false
  | some _ =>
    (Block.GetBlock b childElement).isSome || (Block.GetAttribute b childElement).isSome

/-- Modelled from the spec: `MissingChild(name)`, true on the absent block and
otherwise the negation of `HasChild`. -/
def Block.MissingChild (b : Option Block) (childElement : String) : Bool :=
  match b with
  | none => true
  | some _ => !Block.HasChild b childElement

/-- Modelled from the spec: `Range()` of a block, its source span; the absent
block answers with the empty (zero) range. -/
def Block.Range (b : Option Block) : Range :=
  match b with
  | none => Range.zero
  | some b => b.sourceRange

/-- Modelled from the spec: `FullName()`, the path `kind.typeLabel.instanceLabel`
of a block. -/
def Block.FullName (b : Option Block) : String :=
  match b with
  | none => ""
  | some b => String.intercalate "." (b.kind :: b.typeLabel :: b.instanceLabels)

/-- Modelled from the spec: `Value()` of an attribute; nil has the absent
value. -/
def Attribute.Value (a : Option Attribute) : Value :=
  match a with
  | none => Value.absent
  | some a => a.value

/-- Modelled from the spec: `Type()` of an attribute, the type of its value:
the variant tag for strings, booleans and numbers, another type for anything
else (also for nil). -/
def Attribute.Type (a : Option Attribute) : CtyType :=
  match Attribute.Value a with
  | .string _ => CtyType.String
  | .bool _ => CtyType.Bool
  | .number _ => CtyType.Number
  | _ => CtyType.other

/-- Modelled from the spec: `Range()` of an attribute, its source span; nil
answers with the zero range. -/
def Attribute.Range (a : Option Attribute) : Range :=
  match a with
  | none => Range.zero
  | some a => a.range

/-- The call `cty.Value.AsString()`: the string of a string value; `none`
where the library call faults (any other value). -/
def Value.AsString : Value → Option String
  | .string s => some s
  | _ => none

/-- The call `cty.Value.True()`: the boolean of a boolean value; `none` where
the library call faults. -/
def Value.True : Value → Option Bool
  | .bool b => some b
  | _ => none

/-- The call `cty.Value.AsBigFloat()`: the number of a number value; `none`
where the library call faults. -/
def Value.AsBigFloat : Value → Option Rat
  | .number q => some q
  | _ => none

end block

/-! ## Renderings supplied by Go's fmt package -/

/-- What the standard library contributes to the strings built here:
`Quote` is `strconv.Quote`, the Go double-quoted syntax `%#v` prints a string
in; `Float64` is `%#v` of the float64 nearest to a number; `RangeString` is
`%s` of a `block.Range`. -/
structure GoFmt where
  Quote : String → String
  Float64 : Rat → String
  RangeString : block.Range → String

/-- The dynamically typed `raw` of `WithAttributeAnnotation`, an `interface{}`
holding a string, a bool or a float64. -/
inductive Raw where
  | string (s : String)
  | bool (b : Bool)
  | float64 (q : Rat)

/-- The verb `%#v` at a `Raw`. -/
def GoFmt.sharpV (f : GoFmt) : Raw → String
  | .string s => f.Quote s
  | .bool b => if b then "true" else "false"
  | .float64 q => f.Float64 q

/-! ## pkg/severity and pkg/provider (string types declared outside the sources) -/

namespace severity

/-- Modelled from the spec: `severity.Severity`, a string type (the formatter
keys a map by the untyped constant `""` next to the three tiers). -/
abbrev Severity := String

/-- Modelled from the spec: the tier error. -/
def Error : Severity := "ERROR"

/-- Modelled from the spec: the tier warning. -/
def Warning : Severity := "WARNING"

/-- Modelled from the spec: the tier info. -/
def Info : Severity := "INFO"

end severity

/-! ## pkg/result/result.go -/

namespace result

/-- The type `Status`, a string type. -/
abbrev Status := String

/-- Constant `Failed`. -/
def Failed : Status := "failed"

/-- Constant `Passed`. -/
def Passed : Status := "passed"

/-- Constant `Ignored`. -/
def Ignored : Status := "ignored"

/-- The struct `Result`, field by field; `provider.Provider` is a string
type. -/
structure Result where
  RuleID : String
  RuleSummary : String
  RuleProvider : String
  Impact : String
  Resolution : String
  Links : List String
  Range : block.Range
  Description : String
  RangeAnnotation : String
  Severity : severity.Severity
  Status : Status

/-- Zero value of `Result`: what a composite literal leaves in the fields it
does not name. -/
def Result.zero : Result :=
  { RuleID := "", RuleSummary := "", RuleProvider := "", Impact := "", Resolution := "",
    Links := [], Range := block.Range.zero, Description := "", RangeAnnotation := "",
    Severity := "", Status := "" }

/-- Function `New`: `&Result{Status: Failed}`. -/
def New : Result :=
  { Result.zero with Status := Failed }

/-- Method `Passed`. -/
def Result.Passed (r : Result) : Bool :=
  r.Status == result.Passed

/-- Method `HashCode`: `fmt.Sprintf("%s:%s", r.Range, r.RuleID)`. -/
def Result.HashCode (f : GoFmt) (r : Result) : String :=
  f.RangeString r.Range ++ ":" ++ r.RuleID

/-- Method `WithRuleID`. -/
def Result.WithRuleID (r : Result) (id : String) : Result :=
  { r with RuleID := id }

/-- Method `WithRuleSummary`. -/
def Result.WithRuleSummary (r : Result) (description : String) : Result :=
  { r with RuleSummary := description }

/-- Method `WithRuleProvider`. -/
def Result.WithRuleProvider (r : Result) (provider : String) : Result :=
  { r with RuleProvider := provider }

/-- Method `WithImpact`. -/
def Result.WithImpact (r : Result) (impact : String) : Result :=
  { r with Impact := impact }

/-- Method `WithResolution`. -/
def Result.WithResolution (r : Result) (resolution : String) : Result :=
  { r with Resolution := resolution }

/-- Method `WithLink`. -/
def Result.WithLink (r : Result) (link : String) : Result :=
  { r with Links := r.Links ++ [link] }

/-- Method `WithLinks`. -/
def Result.WithLinks (r : Result) (links : List String) : Result :=
  { r with Links := links }

/-- Method `WithRange`. -/
def Result.WithRange (r : Result) (codeRange : block.Range) : Result :=
  { r with Range := codeRange }

/-- Method `WithDescription`. -/
def Result.WithDescription (r : Result) (description : String) : Result :=
  { r with Description := description }

/-- Method `WithSeverity`. -/
def Result.WithSeverity (r : Result) (sev : severity.Severity) : Result :=
  { r with Severity := sev }

/-- Method `WithStatus`. -/
def Result.WithStatus (r : Result) (status : result.Status) : Result :=
  { r with Status := status }

/-- The switch of `WithAttributeAnnotation`: the type string and the raw value
the three typed cases assign, `none` for the default case (which returns the
receiver). The accessor of each case is the one the source calls; it is
defined there, see `typedRaw_eq_none_iff`. -/
def typedRaw (attr : Option block.Attribute) : Option (String × Raw) :=
  match block.Attribute.Type attr with
  | .String => (block.Attribute.Value attr).AsString.map fun raw => ("string", Raw.string raw)
  | .Bool => (block.Attribute.Value attr).True.map fun raw => ("bool", Raw.bool raw)
  | .Number => (block.Attribute.Value attr).AsBigFloat.map fun raw => ("number", Raw.float64 raw)
  | .other => none

/-- Method `WithAttributeAnnotation`: after the switch,
`r.RangeAnnotation = fmt.Sprintf("[%s] %#v", typeStr, raw)`. -/
def Result.WithAttributeAnnotation (f : GoFmt) (r : Result) (attr : Option block.Attribute) :
    Result :=
  match typedRaw attr with
  | none => r
  | some (typeStr, raw) => { r with RangeAnnotation := "[" ++ typeStr ++ "] " ++ f.sharpV raw }

/-- Modelled from the spec: a `result.Set` (an interface declared outside the
sources) as the append-only, order-preserving collection of the results added
so far. -/
abbrev Set := List Result

/-- Modelled from the spec: `Add` appends the result at the end. -/
def Set.Add (set : Set) (r : Result) : Set :=
  set ++ [r]

end result

/-! ## Further queries of the block package -/

namespace block

/-- Modelled from the spec: `TypeLabel()`, the type label of a block (empty on
the absent block). -/
def Block.TypeLabel (b : Option Block) : String :=
  match b with
  | none => ""
  | some b => b.typeLabel

/-- Modelled from the spec: `IsResourceType(t)`, whether the block's type label
is `t`. -/
def Block.IsResourceType (b : Option Block) (resourceType : String) : Bool :=
  Block.TypeLabel b == resourceType

/-- Modelled from the spec: `GetAttributes()`, the attributes of a block in
their order; none on the absent block. -/
def Block.GetAttributes (b : Option Block) : List Attribute :=
  match b with
  | none => []
  | some b => b.attributes

/-- Modelled from the spec: `Name()` of an attribute. -/
def Attribute.Name (a : Option Attribute) : String :=
  match a with
  | none => ""
  | some a => a.name

/-- The call `cty.Value.Type()`. -/
def Value.Type : Value → CtyType
  | .string _ => CtyType.String
  | .bool _ => CtyType.Bool
  | .number _ => CtyType.Number
  | _ => CtyType.other

/-- Modelled from the spec: `IsTrue()` is true only for the boolean variant
with the literal value true (a string "true" is not boolean true); false on
nil. -/
def Attribute.IsTrue (a : Option Attribute) : Bool :=
  match Attribute.Value a with
  | .bool b => b
  | _ => false

/-- Modelled from the spec: `IsFalse()` is true only for the boolean variant
with the literal value false; false on nil. -/
def Attribute.IsFalse (a : Option Attribute) : Bool :=
  match Attribute.Value a with
  | .bool b => !b
  | _ => false

/-- Modelled from the spec: `IsEmpty()` is true for absent, unknown,
zero-length string, zero-length list/map. -/
def Attribute.IsEmpty (a : Option Attribute) : Bool :=
  match Attribute.Value a with
  | .absent => true
  | .unknown => true
  | .string s => s.length == 0
  | .list xs => xs.isEmpty
  | .map kvs => kvs.isEmpty
  | _ => false

/-- Modelled from the spec: `LessThan(n)`, a type-aware comparison: true of a
number below `n`, false of every other variant and of nil (queries are total,
missing data yields false). -/
def Attribute.LessThan (a : Option Attribute) (checkValue : Int) : Bool :=
  match Attribute.Value a with
  | .number q => decide (q < (checkValue : Rat))
  | _ => false

end block

/-! ## internal/app/tfsec/rules -/

namespace rules

open block result

/-- Check function of AWS004 (`AWSPlainHTTP`), aws004.go lines 60-90. The
`return` inside the redirect test leaves the set as it is; every other path
through the outer `if` reaches the construction of `res` and `set.Add(res)`. -/
def AWSPlainHTTP (f : GoFmt) (set : result.Set) (block : Block) : result.Set :=
  let protocolAttr := Block.GetAttribute block "protocol"
  if protocolAttr.isNone ||
      (Attribute.Type protocolAttr == CtyType.String &&
        (Attribute.Value protocolAttr).AsString == some "HTTP") then
    let report : result.Set :=
      let res := (New.WithDescription
          ("Resource \x27" ++ Block.FullName block ++
            "\x27 uses plain HTTP instead of HTTPS.")).WithSeverity severity.Error
      let res :=
        if protocolAttr.isSome then
          Result.WithAttributeAnnotation f (res.WithRange (Attribute.Range protocolAttr))
            protocolAttr
        else
          res.WithRange (Block.Range block)
      set.Add res
    -- check if this is a redirect to HTTPS - if it is, then no problem
    let actionBlock := Block.GetBlock block "default_action"
    if actionBlock.isSome then
      let actionTypeAttr := Block.GetAttribute actionBlock "type"
      if actionTypeAttr.isSome && Attribute.Type actionTypeAttr == CtyType.String &&
          (Attribute.Value actionTypeAttr).AsString == some "redirect" then
        let redirectBlock := Block.GetBlock actionBlock "redirect"
        if redirectBlock.isSome then
          let redirectProtocolAttr := Block.GetAttribute redirectBlock "protocol"
          if redirectProtocolAttr.isSome &&
              Attribute.Type redirectProtocolAttr == CtyType.String &&
              (Attribute.Value redirectProtocolAttr).AsString == some "HTTPS" then
            set
          else report
        else report
      else report
    else report
  else
    set

/-- Check function of AWS021 (`AWSCloudFrontOutdatedProtocol`), aws021.go lines
64-91: the test for a missing `viewer_certificate` block adds its result and
falls through to the test of `minimum_protocol_version`. -/
def AWSCloudFrontOutdatedProtocol (set : result.Set) (block : Block) : result.Set :=
  let viewerCertificateBlock := Block.GetBlock block "viewer_certificate"
  let set :=
    if viewerCertificateBlock.isNone then
      set.Add ((New.WithDescription
          ("Resource \x27" ++ Block.FullName block ++
            "\x27 defines outdated SSL/TLS policies (missing viewer_certificate block)")
        |>.WithRange (Block.Range block)).WithSeverity severity.Error)
    else
      set
  let minVersion := Block.GetAttribute viewerCertificateBlock "minimum_protocol_version"
  if minVersion.isNone then
    set.Add ((New.WithDescription
        ("Resource \x27" ++ Block.FullName block ++
          "\x27 defines outdated SSL/TLS policies (missing minimum_protocol_version attribute)")
      |>.WithRange (Block.Range viewerCertificateBlock)).WithSeverity severity.Error)
  else if Attribute.Type minVersion == CtyType.String &&
      (Attribute.Value minVersion).AsString != some "TLSv1.2_2019" then
    set.Add ((New.WithDescription
        ("Resource \x27" ++ Block.FullName block ++
          "\x27 defines outdated SSL/TLS policies (not using TLSv1.2_2019)")
      |>.WithRange (Attribute.Range minVersion)).WithSeverity severity.Error)
  else
    set

end rules

/-! ## Further rules of internal/app/tfsec/rules -/

namespace rules

open block result

/-- Check function of GCP010 (`GkeShieldedNodesDisabled`), gcp010.go lines
57-80. -/
def GkeShieldedNodesDisabled (set : result.Set) (block : Block) : result.Set :=
  if Block.MissingChild block "enable_shielded_nodes" then
    set.Add ((New.WithDescription
        ("Resource \x27" ++ Block.FullName block ++
          "\x27 defines a cluster with shielded nodes disabled. Shielded GKE Nodes provide strong, verifiable node identity and integrity to increase the security of GKE nodes and should be enabled on all GKE clusters.")
      |>.WithRange (Block.Range block)).WithSeverity severity.Error)
  else
    let enableShieldedNodesAttr := Block.GetAttribute block "enable_shielded_nodes"
    if Attribute.IsFalse enableShieldedNodesAttr then
      set.Add ((New.WithDescription
          ("Resource \x27" ++ Block.FullName block ++
            "\x27 defines a cluster with shielded nodes disabled. Shielded GKE Nodes provide strong, verifiable node identity and integrity to increase the security of GKE nodes and should be enabled on all GKE clusters.")
        |>.WithRange (Attribute.Range enableShieldedNodesAttr)).WithSeverity severity.Error)
    else
      set

/-- Check function of AWS065 (`AWSCloudtrailEncryptedAtRest`), aws065.go lines
78-101. -/
def AWSCloudtrailEncryptedAtRest (f : GoFmt) (set : result.Set) (block : Block) : result.Set :=
  if Block.MissingChild block "kms_key_id" then
    set.Add ((New.WithDescription
        ("Resource \x27" ++ Block.FullName block ++ "\x27 does not have a kms_key_id set.")
      |>.WithRange (Block.Range block)).WithSeverity severity.Error)
  else
    let kmsKeyIdAttr := Block.GetAttribute block "kms_key_id"
    if Attribute.IsEmpty kmsKeyIdAttr then
      set.Add (( Result.WithAttributeAnnotation f
        ((New.WithDescription
          ("Resource \x27" ++ Block.FullName block ++
            "\x27 has a kms_key_id but it is not set.")).WithRange
              (Attribute.Range kmsKeyIdAttr))
        kmsKeyIdAttr).WithSeverity severity.Error)
    else
      set

/-- Check function of AWS050 (`AWSOpenAllIngressNetworkACLRule`), aws050.go
lines 65-114; `none` where it faults. The three tests on `egress` and
`rule_action` have empty bodies in the source: their conditions are evaluated
(the third calls `AsString()` unguarded) and execution continues. The helper
`isOpenCidr` of the rules package is not part of the sources and is a
parameter. -/
def AWSOpenAllIngressNetworkACLRule (f : GoFmt) (isOpenCidr : Option Attribute → Bool)
    (set : result.Set) (block : Block) : Option result.Set := do
  let egressAttr := Block.GetAttribute block "egress"
  let actionAttr := Block.GetAttribute block "rule_action"
  let protoAttr := Block.GetAttribute block "protocol"
  -- if egressAttr.Type() == cty.Bool && egressAttr.Value().True() { }
  let _ := Attribute.Type egressAttr == CtyType.Bool &&
    (Attribute.Value egressAttr).True == some true
  -- if actionAttr == nil || actionAttr.Type() != cty.String { }
  let _ := actionAttr.isNone || Attribute.Type actionAttr != CtyType.String
  -- if actionAttr.Value().AsString() != "allow" { }
  let action ← (Attribute.Value actionAttr).AsString
  let _ := action != "allow"
  let cidrBlockAttr := Block.GetAttribute block "cidr_block"
  let set ←
    if cidrBlockAttr.isSome && isOpenCidr cidrBlockAttr then do
      let proto ← (Attribute.Value protoAttr).AsString
      if proto == "all" || proto == "-1" then
        pure (set.Add (( Result.WithAttributeAnnotation f
          ((New.WithDescription
            ("Resource \x27" ++ Block.FullName block ++
              "\x27 defines a fully open ingress Network ACL rule with ALL ports open.")).WithRange
                (Attribute.Range cidrBlockAttr))
          cidrBlockAttr).WithSeverity severity.Error))
      else
        pure set
    else
      pure set
  let ipv6CidrBlockAttr := Block.GetAttribute block "ipv6_cidr_block"
  if ipv6CidrBlockAttr.isSome && isOpenCidr ipv6CidrBlockAttr then do
    let proto ← (Attribute.Value protoAttr).AsString
    if proto == "all" || proto == "-1" then
      pure (set.Add (( Result.WithAttributeAnnotation f
        ((New.WithDescription
          ("Resource \x27" ++ Block.FullName block ++
            "\x27 defines a fully open ingress Network ACL rule with ALL ports open.")).WithRange
              (Attribute.Range ipv6CidrBlockAttr))
        ipv6CidrBlockAttr).WithSeverity severity.Error))
    else
      pure set
  else
    pure set

/-- Check function of AWS039 (`AWSIAMPasswordMinimumLength`), aws039.go lines
66-85. `Float64` is the conversion `big.Float.Float64()` to the nearest
float64 (given as the rational it denotes); `value < 14` compares it. -/
def AWSIAMPasswordMinimumLength (Float64 : Rat → Rat) (set : result.Set) (block : Block) :
    result.Set :=
  let attr := Block.GetAttribute block "minimum_password_length"
  if attr.isNone then
    set.Add ((New.WithDescription
        ("Resource \x27" ++ Block.FullName block ++
          "\x27 does not have a minimum password length set.")
      |>.WithRange (Block.Range block)).WithSeverity severity.Warning)
  else if (Attribute.Value attr).Type == CtyType.Number then
    match (Attribute.Value attr).AsBigFloat with
    | some big =>
      let value := Float64 big
      if value < 14 then
        set.Add ((New.WithDescription
            ("Resource \x27" ++ Block.FullName block ++
              "\x27 has a minimum password length which is less than 14 characters.")
          |>.WithRange (Block.Range block)).WithSeverity severity.Warning)
      else
        set
    | none => set
  else
    set

/-- Check function of AZU019 (`AZUDatabaseAuditingRetention90Days`), azu019.go
lines 75-94. The tests `MissingChild("extended_auditing_policy")` and
`MissingChild("retention_in_days")` have empty bodies in the source, so only
the reassignment of `block` and the `LessThan(90)` test act. -/
def AZUDatabaseAuditingRetention90Days (set : result.Set) (block : Block) : result.Set :=
  let block : Option Block :=
    if !Block.IsResourceType block "azurerm_mssql_database_extended_auditing_policy" then
      -- if block.MissingChild("extended_auditing_policy") { }
      Block.GetBlock block "extended_auditing_policy"
    else
      some block
  -- if block.MissingChild("retention_in_days") { /* using default of unlimited */ }
  if Attribute.LessThan (Block.GetAttribute block "retention_in_days") 90 then
    set.Add ((New.WithDescription
        ("Resource \x27" ++ Block.FullName block ++
          "\x27 specifies a retention period of less than 90 days.")
      |>.WithRange (Block.Range block)).WithSeverity severity.Error)
  else
    set

/-- The variable `outdatedSSLPolicies` of aws010.go. -/
def outdatedSSLPolicies : List String :=
  ["ELBSecurityPolicy-2015-05",
   "ELBSecurityPolicy-TLS-1-0-2015-04",
   "ELBSecurityPolicy-2016-08",
   "ELBSecurityPolicy-TLS-1-1-2017-01"]

/-- Check function of AWS010 (`AWSOutdatedSSLPolicy`), aws010.go lines 67-83:
the loop over `outdatedSSLPolicies` adds a result at every entry equal to the
attribute's string. -/
def AWSOutdatedSSLPolicy (f : GoFmt) (set : result.Set) (block : Block) : result.Set :=
  let sslPolicyAttr := Block.GetAttribute block "ssl_policy"
  if sslPolicyAttr.isSome && Attribute.Type sslPolicyAttr == CtyType.String then
    outdatedSSLPolicies.foldl
      (fun set policy =>
        if some policy == (Attribute.Value sslPolicyAttr).AsString then
          set.Add (( Result.WithAttributeAnnotation f
            ((New.WithDescription
              ("Resource \x27" ++ Block.FullName block ++
                "\x27 is using an outdated SSL policy.")).WithRange
                  (Attribute.Range sslPolicyAttr))
            sslPolicyAttr).WithSeverity severity.Error)
        else
          set)
      set
  else
    set

/-- The variable `sensitiveWhitelist` of gen003.go, as pairs
(Resource, Attribute). -/
def sensitiveWhitelist : List (String × String) :=
  [("aws_efs_file_system", "creation_token"),
   ("aws_instance", "get_password_data"),
   ("github_actions_secret", "secret_name"),
   ("github_actions_organization_secret", "secret_name"),
   ("google_secret_manager_secret", "secret_id")]

/-- Check function of GEN003 (`GenericSensitiveAttributes`), gen003.go lines
92-116. The inner loop with `continue SKIP` skips an attribute as soon as one
whitelist entry matches; the loop variable `attribute` is `attr` here. `IsSensitiveAttribute` of the security package is not
part of the sources and is a parameter. -/
def GenericSensitiveAttributes (f : GoFmt) (IsSensitiveAttribute : String → Bool)
    (set : result.Set) (block : Block) : result.Set :=
  let attributes := Block.GetAttributes block
  attributes.foldl
    (fun set attr =>
      if sensitiveWhitelist.any (fun whitelisted =>
          whitelisted.1 == Block.TypeLabel block &&
            whitelisted.2 == Attribute.Name (some attr)) then
        set
      else if IsSensitiveAttribute (Attribute.Name (some attr)) then
        if Attribute.Type (some attr) == CtyType.String &&
            (Attribute.Value (some attr)).AsString != some "" then
          set.Add (( Result.WithAttributeAnnotation f
            ((New.WithDescription
              ("Block \x27" ++ Block.FullName block ++
                "\x27 includes a potentially sensitive attribute which is defined within the project.")).WithRange
                  (Attribute.Range (some attr)))
            (some attr)).WithSeverity severity.Warning)
        else
          set
      else
        set)
    set

/-- Check function of GEN002 (`GenericSensitiveLocals`), gen002.go lines
70-85. -/
def GenericSensitiveLocals (f : GoFmt) (IsSensitiveAttribute : String → Bool)
    (set : result.Set) (block : Block) : result.Set :=
  (Block.GetAttributes block).foldl
    (fun set attr =>
      if IsSensitiveAttribute (Attribute.Name (some attr)) then
        if Attribute.Type (some attr) == CtyType.String &&
            (Attribute.Value (some attr)).AsString != some "" then
          set.Add (( Result.WithAttributeAnnotation f
            ((New.WithDescription
              ("Local \x27" ++ Block.FullName block ++
                "\x27 includes a potentially sensitive value which is defined within the project.")).WithRange
                  (Attribute.Range (some attr)))
            (some attr)).WithSeverity severity.Warning)
        else
          set
      else
        set)
    set

end rules

/-! ## pkg/rule/rule.go -/

namespace rule

/-- The struct `RuleDocumentation`. -/
structure RuleDocumentation where
  Summary : String
  Explanation : String
  Impact : String
  Resolution : String
  BadExample : String
  GoodExample : String
  Links : List String

/-- The struct `Rule`. A check function gets the result set and the block and
gives the set back, `none` where it faults; the `hclcontext.Context` argument,
which none of the check functions embedded here reads, is left out. -/
structure Rule where
  ID : String
  Documentation : RuleDocumentation
  Provider : String
  RequiredTypes : List String
  RequiredLabels : List String
  CheckFunc : result.Set → block.Block → Option result.Set

end rule

/-! ## pkg/provider (declared outside the sources) -/

namespace provider

/-- Modelled from the spec: the provider tag of AWS rules. -/
def AWSProvider : String := "aws"

/-- Modelled from the spec: the provider tag of general rules. -/
def GeneralProvider : String := "general"

end provider

/-! ## Rules as registered -/

namespace rules

open block result

/-- The rule AWS004 as `init` of aws004.go registers it. -/
def AWSPlainHTTPRule (f : GoFmt) : rule.Rule where
  ID := "AWS004"
  Documentation :=
    { Summary := "Use of plain HTTP."
      Explanation := "\nPlain HTTP is unencrypted and human-readable. This means that if a malicious actor was to eavesdrop on your connection, they would be able to see all of your data flowing back and forth.\n\nYou should use HTTPS, which is HTTP over an encrypted (TLS) connection, meaning eavesdroppers cannot read your traffic.\n"
      Impact := "Your traffic is not protected"
      Resolution := "Switch to HTTPS to benefit from TLS security features"
      BadExample := "\nresource \"aws_alb_listener\" \"bad_example\" \x7b\n\tprotocol = \"HTTP\"\n\x7d\n"
      GoodExample := "\nresource \"aws_alb_listener\" \"good_example\" \x7b\n\tprotocol = \"HTTPS\"\n\x7d\n"
      Links := ["https://www.cloudflare.com/en-gb/learning/ssl/why-is-http-not-secure/",
        "https://registry.terraform.io/providers/hashicorp/aws/latest/docs/resources/lb_listener"] }
  Provider := provider.AWSProvider
  RequiredTypes := ["resource"]
  RequiredLabels := ["aws_lb_listener", "aws_alb_listener"]
  CheckFunc := fun set block => some (AWSPlainHTTP f set block)

/-- The rule GEN002 as `init` of gen002.go registers it. -/
def GenericSensitiveLocalsRule (f : GoFmt) (IsSensitiveAttribute : String → Bool) : rule.Rule where
  ID := "GEN002"
  Documentation :=
    { Summary := "Potentially sensitive data stored in local value."
      Explanation := "\nSensitive attributes such as passwords and API tokens should not be available in your templates, especially in a plaintext form. You can declare variables to hold the secrets, assuming you can provide values for those variables in a secure fashion. Alternatively, you can store these secrets in a secure secret store, such as AWS KMS.\n\n*NOTE: It is also recommended to store your Terraform state in an encrypted form.*\n"
      Impact := "Local value could be leaking secrets"
      Resolution := "Don\x27t include sensitive data in locals"
      BadExample := "\nlocals \x7b\n  password = \"p4ssw0rd\"\n\x7d\n\nresource \"evil_corp\" \"bad_example\" \x7b\n\troot_password = local.password\n\x7d\n"
      GoodExample := "\nvariable \"password\" \x7b\n  description = \"The root password for our VM\"\n  type        = string\n\x7d\n\nresource \"evil_corp\" \"good_example\" \x7b\n\troot_password = var.password\n\x7d\n"
      Links := ["https://www.terraform.io/docs/state/sensitive-data.html"] }
  Provider := provider.GeneralProvider
  RequiredTypes := ["locals"]
  RequiredLabels := []
  CheckFunc := fun set block => some (GenericSensitiveLocals f IsSensitiveAttribute set block)

end rules

/-! ## The scanner (declared outside the sources) -/

namespace scanner

open block result

/-- Modelled from the spec: what the caller sets on a scanner: the rule ids to
exclude (`OptionExcludeRules`), whether excluded results are shown, whether
a passed record is wanted where a rule finds nothing, and the severity
overrides by rule id. -/
structure Options where
  excludedRuleIDs : List String
  includeIgnored : Bool
  includePassed : Bool
  severityOverrides : List (String × severity.Severity)

/-- Modelled from the spec: a rule is eligible for a block when the rule's
match kinds (`RequiredTypes`) have the block's kind and its match type labels
(`RequiredLabels`) are empty or contain the block's type label. -/
def isRuleRequiredForBlock (r : rule.Rule) (b : Block) : Bool :=
  r.RequiredTypes.contains b.kind &&
    (r.RequiredLabels.isEmpty || r.RequiredLabels.contains b.typeLabel)

/-- Modelled from the spec: the registered rules in dispatch order, by rule id
ascending. -/
def rulesInOrder (registry : List rule.Rule) : List rule.Rule :=
  registry.insertionSort (fun r₁ r₂ => r₁.ID ≤ r₂.ID)

/-- Modelled from the spec: the dispatches of a scan: for each block in input
order, each eligible rule in rule order. -/
def dispatch (registry : List rule.Rule) : List Block → List (rule.Rule × Block)
  | [] => []
  | b :: blocks =>
    ((rulesInOrder registry).filter (fun r => isRuleRequiredForBlock r b)).map (fun r => (r, b))
      ++ dispatch registry blocks

/-- Modelled from the spec: a result a rule has added is completed from the
rule by the setters of result.go that no check function calls: rule id,
summary, provider, impact, resolution and links. -/
def complete (r : rule.Rule) (res : Result) : Result :=
  (((((res.WithRuleID r.ID).WithRuleSummary r.Documentation.Summary).WithRuleProvider
    r.Provider).WithImpact r.Documentation.Impact).WithResolution
      r.Documentation.Resolution).WithLinks r.Documentation.Links

/-- Modelled from the spec: one dispatch. The check function runs on a
collector of its own; a faulting check function is isolated and contributes
nothing; where it finds nothing and passed records are wanted, a result with
status Passed at the block is synthesized. -/
def runRule (opts : Options) (r : rule.Rule) (b : Block) : List Result :=
  match r.CheckFunc [] b with
  | none => []
  | some found =>
    if found.isEmpty && opts.includePassed then
      [complete r ((New.WithStatus Passed).WithRange (Block.Range b))]
    else
      found.map (complete r)

/-- Modelled from the spec: the post-scan policy at one result. A severity
override for its rule id replaces the severity; a result whose rule id is
excluded is marked Ignored and dropped, or kept with that status when excluded
results are shown. -/
def applyPolicy (opts : Options) (res : Result) : Option Result :=
  let res :=
    match opts.severityOverrides.lookup res.RuleID with
    | some sev => res.WithSeverity sev
    | none => res
  if opts.excludedRuleIDs.contains res.RuleID then
    if opts.includeIgnored then some (res.WithStatus Ignored) else none
  else
    some res

/-- Modelled from the spec: the results of all dispatches in dispatch order,
before the post-scan policy. -/
def collect (opts : Options) : List (rule.Rule × Block) → List Result
  | [] => []
  | (r, b) :: rest => runRule opts r b ++ collect opts rest

/-- Modelled from the spec: `Scan(blocks)`, the accumulated results of the
dispatches after the post-scan policy. -/
def Scan (opts : Options) (registry : List rule.Rule) (blocks : List Block) : List Result :=
  (collect opts (dispatch registry blocks)).filterMap (applyPolicy opts)

end scanner

/-! ## Sample inputs -/

namespace sample

open block

/-- A source range for the samples. -/
def rangeAt (first last : Int) : Range := ⟨"main.tf", first, last⟩

/-- Rendering used to evaluate the samples: strings between double quotes
(right for strings that need no escape), integral numbers as their decimal
digits, ranges as `file:first-last`. -/
def fmt : GoFmt where
  Quote := fun s => "\"" ++ s ++ "\""
  Float64 := fun q => if q.den = 1 then toString q.num else "?"
  RangeString := fun r => r.Filename ++ ":" ++ toString r.StartLine ++ "-" ++ toString r.EndLine

/-- The attribute `protocol = "HTTP"` on line 2. -/
def protocolHTTP : Attribute := ⟨"protocol", .string "HTTP", rangeAt 2 2⟩

/-- The attribute `protocol = "HTTPS"` on line 2. -/
def protocolHTTPS : Attribute := ⟨"protocol", .string "HTTPS", rangeAt 2 2⟩

/-- Bad example of AWS004: `resource "aws_alb_listener" "bad_example"` with
`protocol = "HTTP"`. -/
def albBad : Block :=
  .mk "resource" "aws_alb_listener" ["bad_example"] (rangeAt 1 3) [protocolHTTP] []

/-- Good example of AWS004, with `protocol = "HTTPS"`. -/
def albGood : Block :=
  .mk "resource" "aws_alb_listener" ["good_example"] (rangeAt 1 3) [protocolHTTPS] []

/-- A listener without any attribute or child block. -/
def albEmpty : Block :=
  .mk "resource" "aws_alb_listener" ["empty"] (rangeAt 1 2) [] []

/-- A child block `redirect` with `protocol = "HTTPS"`. -/
def redirectHTTPS : Block :=
  .mk "redirect" "" [] (rangeAt 5 7) [⟨"protocol", .string "HTTPS", rangeAt 6 6⟩] []

/-- A child block `default_action` with `type = "redirect"` and the redirect
to HTTPS. -/
def actionRedirect : Block :=
  .mk "default_action" "" [] (rangeAt 3 8) [⟨"type", .string "redirect", rangeAt 4 4⟩]
    [redirectHTTPS]

/-- A plain-HTTP listener that redirects to HTTPS. -/
def albRedirect : Block :=
  .mk "resource" "aws_alb_listener" ["redirect"] (rangeAt 1 9) [protocolHTTP] [actionRedirect]

/-- A CloudFront distribution without a `viewer_certificate` block. -/
def cloudfrontBare : Block :=
  .mk "resource" "aws_cloudfront_distribution" ["bare"] (rangeAt 1 2) [] []

/-- A finding of AWS004 as the scanner completes it. -/
def findingA : result.Result :=
  { result.New with
    RuleID := "AWS004", Range := rangeAt 2 2, Description := "uses plain HTTP",
    Severity := severity.Error, Links := ["https://example.org"],
    RangeAnnotation := "[string] \"HTTP\"" }

/-- A result with the range and rule of `findingA` and every other field
different. -/
def findingB : result.Result :=
  { result.New with
    RuleID := "AWS004", Range := rangeAt 2 2, Description := "something else",
    Severity := severity.Warning, Status := result.Passed, Impact := "none",
    Resolution := "nothing to do" }

end sample

/-! ## Further sample inputs -/

namespace sample

open block

/-- Bad example of GCP010: `enable_shielded_nodes = "false"`, a string. -/
def gkeBad : Block :=
  .mk "resource" "google_container_cluster" ["bad_example"] (rangeAt 1 3)
    [⟨"enable_shielded_nodes", .string "false", rangeAt 2 2⟩] []

/-- Good example of GCP010: `enable_shielded_nodes = "true"`, a string. -/
def gkeGood : Block :=
  .mk "resource" "google_container_cluster" ["good_example"] (rangeAt 1 3)
    [⟨"enable_shielded_nodes", .string "true", rangeAt 2 2⟩] []

/-- The attribute `kms_key_id = var.kms_id` of the good example of AWS065,
with no value for the variable: unknown. -/
def kmsKeyUnknown : Attribute := ⟨"kms_key_id", .unknown, rangeAt 4 4⟩

/-- Good example of AWS065. -/
def cloudtrailGood : Block :=
  .mk "resource" "aws_cloudtrail" ["good_example"] (rangeAt 1 15)
    [⟨"is_multi_region_trail", .bool true, rangeAt 2 2⟩,
     ⟨"enable_log_file_validation", .bool true, rangeAt 3 3⟩,
     kmsKeyUnknown]
    [.mk "event_selector" "" [] (rangeAt 6 14)
      [⟨"read_write_type", .string "All", rangeAt 7 7⟩,
       ⟨"include_management_events", .bool true, rangeAt 8 8⟩]
      [.mk "data_resource" "" [] (rangeAt 10 13)
        [⟨"type", .string "AWS::S3::Object", rangeAt 11 11⟩,
         ⟨"values", .list [.unknown], rangeAt 12 12⟩] []]]

/-- The open ranges the helper `isOpenCidr` answers true for: a string
attribute "0.0.0.0/0" or "::/0". -/
def isOpenCidr (attr : Option Attribute) : Bool :=
  match Attribute.Value attr with
  | .string s => s == "0.0.0.0/0" || s == "::/0"
  | _ => false

/-- The attribute `cidr_block = "0.0.0.0/0"`. -/
def cidrOpen : Attribute := ⟨"cidr_block", .string "0.0.0.0/0", rangeAt 5 5⟩

/-- The bad example of AWS050 turned into an egress rule: `egress = true`. -/
def aclEgress : Block :=
  .mk "resource" "aws_network_acl_rule" ["egress_rule"] (rangeAt 1 6)
    [⟨"egress", .bool true, rangeAt 2 2⟩,
     ⟨"protocol", .string "all", rangeAt 3 3⟩,
     ⟨"rule_action", .string "allow", rangeAt 4 4⟩,
     cidrOpen] []

/-- The bad example of AWS050 turned into a deny rule: `rule_action = "deny"`. -/
def aclDeny : Block :=
  .mk "resource" "aws_network_acl_rule" ["deny_rule"] (rangeAt 1 6)
    [⟨"egress", .bool false, rangeAt 2 2⟩,
     ⟨"protocol", .string "all", rangeAt 3 3⟩,
     ⟨"rule_action", .string "deny", rangeAt 4 4⟩,
     cidrOpen] []

/-- A password policy with `minimum_password_length = n`. -/
def passwordPolicy (n : Int) : Block :=
  .mk "resource" "aws_iam_account_password_policy" ["policy"] (rangeAt 1 3)
    [⟨"minimum_password_length", .number n, rangeAt 2 2⟩] []

/-- The attribute `retention_in_days = 6` of the bad example of AZU019. -/
def retention6 : Attribute := ⟨"retention_in_days", .number 6, rangeAt 6 6⟩

/-- Bad example of AZU019. -/
def auditingBad : Block :=
  .mk "resource" "azurerm_mssql_database_extended_auditing_policy" ["bad_example"] (rangeAt 1 7)
    [⟨"database_id", .unknown, rangeAt 2 2⟩,
     ⟨"storage_endpoint", .unknown, rangeAt 3 3⟩,
     ⟨"storage_account_access_key", .unknown, rangeAt 4 4⟩,
     ⟨"storage_account_access_key_is_secondary", .bool false, rangeAt 5 5⟩,
     retention6] []

/-- The attribute `ssl_policy = "ELBSecurityPolicy-TLS-1-1-2017-01"` of the bad
example of AWS010. -/
def sslOutdated : Attribute :=
  ⟨"ssl_policy", .string "ELBSecurityPolicy-TLS-1-1-2017-01", rangeAt 2 2⟩

/-- Bad example of AWS010. -/
def listenerOutdated : Block :=
  .mk "resource" "aws_alb_listener" ["bad_example"] (rangeAt 1 4)
    [sslOutdated, ⟨"protocol", .string "HTTPS", rangeAt 3 3⟩] []

/-- A stand-in for `security.IsSensitiveAttribute`: names that contain
"password" or "secret". -/
def isSensitive (name : String) : Bool :=
  (name.splitOn "password").length > 1 || (name.splitOn "secret").length > 1

/-- Bad example of GEN003: `root_password = "p4ssw0rd"`. -/
def evilCorpBad : Block :=
  .mk "resource" "evil_corp" ["bad_example"] (rangeAt 1 3)
    [⟨"root_password", .string "p4ssw0rd", rangeAt 2 2⟩] []

/-- A locals block. -/
def localsBlock : Block :=
  .mk "locals" "" [] (rangeAt 1 3) [⟨"password", .string "p4ssw0rd", rangeAt 2 2⟩] []

/-- The registry of the samples: AWS004 and GEN002. -/
def registry : List rule.Rule :=
  [rules.GenericSensitiveLocalsRule fmt isSensitive, rules.AWSPlainHTTPRule fmt]

/-- Scanner options that exclude AWS004 and hide excluded results. -/
def excludeAWS004 : scanner.Options :=
  { excludedRuleIDs := ["AWS004"], includeIgnored := false, includePassed := false,
    severityOverrides := [] }

end sample

namespace sample

/-- A registry that holds AWS004 only. -/
def registryAWS004 : List rule.Rule := [rules.AWSPlainHTTPRule fmt]

/-- Scanner options that exclude AWS004 and show excluded results. -/
def showExcluded : scanner.Options :=
  { excludedRuleIDs := ["AWS004"], includeIgnored := true, includePassed := false,
    severityOverrides := [] }

end sample

/-! ## Strings, JSON and value comparison (standard library and cty) -/

/-- What Go's strings package contributes: `ToLower`, `ToUpper` and
`EqualFold` (equality under Unicode case folding). -/
structure GoStrings where
  ToLower : String → String
  ToUpper : String → String
  EqualFold : String → String → Bool

namespace block

/-- The call `cty.Value.Equals` on the primitive values the rules compare: a
boolean value for two strings, two booleans or two numbers, false for values
of different primitive types; anything else is not decided here (unknown). -/
def Value.Equals : Value → Value → Value
  | .string s, .string t => .bool (s == t)
  | .bool b, .bool c => .bool (b == c)
  | .number p, .number q => .bool (p == q)
  | .string _, .bool _ => .bool false
  | .string _, .number _ => .bool false
  | .bool _, .string _ => .bool false
  | .bool _, .number _ => .bool false
  | .number _, .string _ => .bool false
  | .number _, .bool _ => .bool false
  | _, _ => .unknown

/-- Modelled from the spec: `Equals(value, caseSensitivity)`, a type-aware
comparison: numeric-to-numeric, string-to-string (optionally
case-insensitive), boolean-to-boolean; cross-variant comparisons, also with a
nil attribute, are always false. -/
def Attribute.Equals (strs : GoStrings) (a : Option Attribute) (checkValue : block.Value)
    (ignoreCase : Bool) : Bool :=
  match Attribute.Value a, checkValue with
  | .string s, .string t => if ignoreCase then strs.EqualFold s t else s == t
  | .number p, .number q => p == q
  | .bool b, .bool c => b == c
  | _, _ => false

/-- Modelled from the spec: `Contains(substringOrElement)` operates on strings
(substring), lists (element membership) and maps (key membership); false for
every other variant and for nil. -/
def Attribute.Contains (a : Option Attribute) (checkValue : String) : Bool :=
  match Attribute.Value a with
  | .string s => decide (checkValue.data <:+: s.data)
  | .list xs => xs.any fun x =>
      match x with
      | .string t => t == checkValue
      | _ => false
  | .map kvs => kvs.any fun kv => kv.1 == checkValue
  | _ => false

end block

/-! ## Rules with findings that depend on one another -/

namespace rules

open block result

/-- Check function of AWS033 (`AWSUnenforcedHTTPSElasticsearchDomainEndpoint`),
aws033.go lines 70-105. None of the three tests returns, so each acts on the
set the previous one left. -/
def AWSUnenforcedHTTPSElasticsearchDomainEndpoint (set : result.Set) (block : Block) :
    result.Set :=
  let endpointBlock := Block.GetBlock block "domain_endpoint_options"
  let set :=
    if endpointBlock.isNone then
      set.Add ((New.WithDescription
          ("Resource \x27" ++ Block.FullName block ++
            "\x27 defines an Elasticsearch domain with plaintext traffic (missing domain_endpoint_options block).")
        |>.WithRange (Block.Range block)).WithSeverity severity.Error)
    else
      set
  let enforceHTTPSAttr := Block.GetAttribute endpointBlock "enforce_https"
  let set :=
    if enforceHTTPSAttr.isNone then
      set.Add ((New.WithDescription
          ("Resource \x27" ++ Block.FullName block ++
            "\x27 defines an Elasticsearch domain with plaintext traffic (missing enforce_https attribute).")
        |>.WithRange (Block.Range endpointBlock)).WithSeverity severity.Error)
    else
      set
  let isTrueBool := Attribute.Type enforceHTTPSAttr == CtyType.Bool &&
    (Attribute.Value enforceHTTPSAttr).True == some true
  let isTrueString := Attribute.Type enforceHTTPSAttr == CtyType.String &&
    ((Attribute.Value enforceHTTPSAttr).Equals (Value.string "true")).True == some true
  let enforcedHTTPS := isTrueBool || isTrueString
  if !enforcedHTTPS then
    set.Add ((New.WithDescription
        ("Resource \x27" ++ Block.FullName block ++
          "\x27 defines an Elasticsearch domain with plaintext traffic (enabled attribute set to false).")
      |>.WithRange (Block.Range endpointBlock)).WithSeverity severity.Error)
  else
    set

/-- Check function of AWS051 (`AWSRDSAuroraClusterEncryptionDisabled`),
aws051.go lines 59-89. -/
def AWSRDSAuroraClusterEncryptionDisabled (f : GoFmt) (strs : GoStrings) (set : result.Set)
    (block : Block) : result.Set :=
  let kmsKeyIdAttr := Block.GetAttribute block "kms_key_id"
  let storageEncryptedattr := Block.GetAttribute block "storage_encrypted"
  if (kmsKeyIdAttr.isNone || Attribute.IsEmpty kmsKeyIdAttr) &&
      (storageEncryptedattr.isNone || Attribute.IsFalse storageEncryptedattr) then
    set.Add ((New.WithDescription
        ("Resource \x27" ++ Block.FullName block ++
          "\x27 defines a disabled RDS Cluster encryption.")
      |>.WithRange (Block.Range block)).WithSeverity severity.Error)
  else if Attribute.Equals strs kmsKeyIdAttr (Value.string "") false then
    set.Add (( Result.WithAttributeAnnotation f
      ((New.WithDescription
        ("Resource \x27" ++ Block.FullName block ++
          "\x27 defines a disabled RDS Cluster encryption.")).WithRange
            (Attribute.Range kmsKeyIdAttr))
      kmsKeyIdAttr).WithSeverity severity.Error)
  else if storageEncryptedattr.isNone || Attribute.IsFalse storageEncryptedattr then
    set.Add (( Result.WithAttributeAnnotation f
      ((New.WithDescription
        ("Resource \x27" ++ Block.FullName block ++
          "\x27 defines a enabled RDS Cluster encryption but not the required encrypted_storage.")).WithRange
            (Attribute.Range kmsKeyIdAttr))
      kmsKeyIdAttr).WithSeverity severity.Error)
  else
    set

/-- Check function of AWS024 (`AWSUnencryptedKinesisStream`), aws024.go lines
60-89. -/
def AWSUnencryptedKinesisStream (f : GoFmt) (strs : GoStrings) (set : result.Set)
    (block : Block) : result.Set :=
  let encryptionTypeAttr := Block.GetAttribute block "encryption_type"
  if encryptionTypeAttr.isNone then
    set.Add ((New.WithDescription
        ("Resource \x27" ++ Block.FullName block ++
          "\x27 defines an unencrypted Kinesis Stream.")
      |>.WithRange (Block.Range block)).WithSeverity severity.Error)
  else if Attribute.Type encryptionTypeAttr == CtyType.String &&
      (Attribute.Value encryptionTypeAttr).AsString.map strs.ToUpper != some "KMS" then
    set.Add (( Result.WithAttributeAnnotation f
      ((New.WithDescription
        ("Resource \x27" ++ Block.FullName block ++
          "\x27 defines an unencrypted Kinesis Stream.")).WithRange
            (Attribute.Range encryptionTypeAttr))
      encryptionTypeAttr).WithSeverity severity.Error)
  else
    let keyIDAttr := Block.GetAttribute block "kms_key_id"
    if keyIDAttr.isNone || Attribute.IsEmpty keyIDAttr ||
        Attribute.Equals strs keyIDAttr (Value.string "alias/aws/kinesis") false then
      set.Add ((New.WithDescription
          ("Resource \x27" ++ Block.FullName block ++
            "\x27 defines a Kinesis Stream encrypted with the default Kinesis key.")
        |>.WithRange (Block.Range block)).WithSeverity severity.Warning)
    else
      set

/-- One element of `Statement` in the anonymous struct that AWS047 unmarshals a
policy into. -/
structure SqsStatement where
  Effect : String
  Action : String

/-- The anonymous struct `policy` of AWS047. -/
structure SqsPolicy where
  Statement : List SqsStatement

/-- Check function of AWS047 (`AWSSqsPolicyWildcardActions`), aws047.go lines
86-112; `none` where it faults. The test of the policy's type has an empty
body in the source, so `AsString()` is called whatever the type is.
`Unmarshal` is `json.Unmarshal` into the policy struct, `none` for an error. -/
def AWSSqsPolicyWildcardActions (strs : GoStrings) (Unmarshal : String → Option SqsPolicy)
    (set : result.Set) (block : Block) : Option result.Set := do
  -- if block.GetAttribute("policy").Value().Type() != cty.String { }
  let _ := (Attribute.Value (Block.GetAttribute block "policy")).Type != CtyType.String
  let rawJSON ← (Attribute.Value (Block.GetAttribute block "policy")).AsString
  match Unmarshal rawJSON with
  | some policy =>
    pure (policy.Statement.foldl
      (fun set statement =>
        if strs.ToLower statement.Effect == "allow" &&
            (statement.Action == "*" || statement.Action == "sqs:*") then
          set.Add ((New.WithDescription
              ("SQS policy \x27" ++ Block.FullName block ++
                "\x27 has a wildcard action specified.")
            |>.WithRange (Block.Range block)).WithSeverity severity.Error)
        else
          set)
      set)
  | none => pure set

/-- Check function of AWS080 (`AWSCodeBuildProjectEncryptionNotDisabled`),
aws080.go lines 107-137. -/
def AWSCodeBuildProjectEncryptionNotDisabled (f : GoFmt) (strs : GoStrings) (set : result.Set)
    (b : Block) : result.Set :=
  let blocks := Block.GetBlocks b "secondary_artifacts"
  let blocks :=
    match Block.GetBlock b "artifacts" with
    | some artifact => blocks ++ [artifact]
    | none => blocks
  blocks.foldl
    (fun set artifactBlock =>
      let encryptionDisabledAttr := Block.GetAttribute (some artifactBlock) "encryption_disabled"
      if encryptionDisabledAttr.isSome && Attribute.IsTrue encryptionDisabledAttr then
        let artifactTypeAttr := Block.GetAttribute (some artifactBlock) "type"
        if Attribute.Equals strs artifactTypeAttr (Value.string "NO_ARTIFACTS") true then
          set.Add (( Result.WithAttributeAnnotation f
            ((New.WithDescription
              ("CodeBuild project \x27" ++ Block.FullName b ++
                "\x27 is configured to disable artifact encryption while no artifacts are produced")).WithRange
                  (Block.Range (some artifactBlock)))
            artifactTypeAttr).WithSeverity severity.Warning)
        else
          set.Add (( Result.WithAttributeAnnotation f
            ((New.WithDescription
              ("CodeBuild project \x27" ++ Block.FullName b ++
                "\x27 does not encrypt produced artifacts")).WithRange
                  (Block.Range (some artifactBlock)))
            encryptionDisabledAttr).WithSeverity severity.Error)
      else
        set)
    set

/-- Check function of AWS066 (`AWSEKSSecretsEncryptionEnabled`), aws066.go lines
72-138. -/
def AWSEKSSecretsEncryptionEnabled (f : GoFmt) (set : result.Set) (block : Block) :
    result.Set :=
  if Block.MissingChild block "encryption_config" then
    set.Add ((New.WithDescription
        ("Resource \x27" ++ Block.FullName block ++ "\x27 has no encryptionConfigBlock block")
      |>.WithRange (Block.Range block)).WithSeverity severity.Error)
  else
    let encryptionConfigBlock := Block.GetBlock block "encryption_config"
    if Block.MissingChild encryptionConfigBlock "resources" then
      set.Add ((New.WithDescription
          ("Resource \x27" ++ Block.FullName block ++
            "\x27 has encryptionConfigBlock block with no resourcesAttr attribute specified")
        |>.WithRange (Block.Range encryptionConfigBlock)).WithSeverity severity.Error)
    else
      let resourcesAttr := Block.GetAttribute encryptionConfigBlock "resources"
      let set :=
        if !Attribute.Contains resourcesAttr "secrets" then
          set.Add (( Result.WithAttributeAnnotation f
            ((New.WithDescription
              ("Resource \x27" ++ Block.FullName block ++
                "\x27 does not include secrets in encrypted resources")).WithRange
                  (Attribute.Range resourcesAttr))
            resourcesAttr).WithSeverity severity.Error)
        else
          set
      if Block.MissingChild encryptionConfigBlock "provider" then
        set.Add ((New.WithDescription
            ("Resource \x27" ++ Block.FullName block ++
              "\x27 has encryptionConfigBlock block with no provider block specified")
          |>.WithRange (Block.Range encryptionConfigBlock)).WithSeverity severity.Error)
      else
        let providerBlock := Block.GetBlock encryptionConfigBlock "provider"
        if Block.MissingChild providerBlock "key_arn" then
          set.Add ((New.WithDescription
              ("Resource \x27" ++ Block.FullName block ++
                "\x27 has encryptionConfigBlock block with provider block specified missing key arn")
            |>.WithRange (Block.Range encryptionConfigBlock)).WithSeverity severity.Error)
        else
          let keyArnAttr := Block.GetAttribute providerBlock "key_arn"
          if Attribute.IsEmpty keyArnAttr then
            set.Add (( Result.WithAttributeAnnotation f
              ((New.WithDescription
                ("Resource \x27" ++ Block.FullName block ++
                  "\x27 has encryptionConfigBlock block with provider block specified but key_arn is empty")).WithRange
                    (Attribute.Range keyArnAttr))
              keyArnAttr).WithSeverity severity.Error)
          else
            set

/-- Check function of AWS059 (`AWSEnsureAthenaDbEncrypted`), aws059.go lines
97-119. The name is taken before `block` is reassigned. -/
def AWSEnsureAthenaDbEncrypted (strs : GoStrings) (set : result.Set) (block : Block) :
    result.Set :=
  let blockName := Block.FullName block
  let inspect (block : Option Block) : result.Set :=
    if Block.MissingChild block "encryption_configuration" then
      set.Add ((New.WithDescription
          ("Resource \x27" ++ blockName ++ "\x27 missing encryption configuration block.")
        |>.WithRange (Block.Range block)).WithSeverity severity.Error)
    else
      set
  if strs.EqualFold (Block.TypeLabel block) "aws_athena_workgroup" then
    if Block.HasChild block "configuration" &&
        Block.HasChild (Block.GetBlock block "configuration") "result_configuration" then
      inspect (Block.GetBlock (Block.GetBlock block "configuration") "result_configuration")
    else
      set
  else
    inspect (some block)

end rules

/-! ## internal/app/tfsec/test/setup_test.go -/

namespace test

open block result

/-- The constant `exampleCheckCode`. -/
def exampleCheckCode : String := "EXA001"

/-- The rule that `TestMain` registers; it names no provider. -/
def exampleRule : rule.Rule where
  ID := exampleCheckCode
  Documentation :=
    { Summary := "A stupid example check for a test."
      Impact := "You will look stupid"
      Resolution := "Don\x27t do stupid stuff"
      Explanation := "Bad should not be set."
      BadExample := "\nresource \"problem\" \"x\" \x7b\n\tbad = \"1\"\n\x7d\n"
      GoodExample := "\nresource \"problem\" \"x\" \x7b\n\t\n\x7d\n"
      Links := [] }
  Provider := ""
  RequiredTypes := ["resource"]
  RequiredLabels := ["problem"]
  CheckFunc := fun set block =>
    some (if (Block.GetAttribute block "bad").isSome then
      set.Add (((New.WithDescription "example problem").WithRange
        (Block.Range block)).WithSeverity severity.Error)
    else set)

end test

/-! ## internal/app/tfsec/formatters/default.go -/

namespace formatters

open result

/-- The options `FormatDefault` looks for (the type is declared outside the
sources); `other` is any further option. -/
inductive FormatterOption where
  | IncludePassed
  | ConciseOutput
  | other
  deriving DecidableEq, Repr

/-- What `FormatDefault` prints, piece by piece: the statistics, the success
line "No problems detected!", one check (its number, whether it is shown as
passed, the result), and the closing line with the number of potential
problems. -/
inductive Printed where
  | statistics
  | success
  | check (number : Nat) (asPassed : Bool) (res : Result)
  | problems (count : Int)

/-- Function `countPassedResults`. -/
def countPassedResults (results : List Result) : Nat :=
  results.foldl (fun passed res => if res.Passed then passed + 1 else passed) 0

/-- The loop of `FormatDefault` over its options, on the triple
(showStatistics, showSuccessOutput, includePassedChecks); `ConciseOutput`
ends the loop. -/
def readOptions : List FormatterOption → Bool × Bool × Bool → Bool × Bool × Bool
  | [], state => state
  | option :: options, (showStatistics, showSuccessOutput, includePassedChecks) =>
    let includePassedChecks :=
      if option = FormatterOption.IncludePassed then true else includePassedChecks
    if option = FormatterOption.ConciseOutput then
      (false, false, includePassedChecks)
    else
      readOptions options (showStatistics, showSuccessOutput, includePassedChecks)

/-- The loop of `FormatDefault` over the results, numbering from 1. -/
def printChecks (includePassedChecks : Bool) : Nat → List Result → List Printed
  | _, [] => []
  | i, res :: results =>
    Printed.check (i + 1) (includePassedChecks && res.Status == result.Passed) res ::
      printChecks includePassedChecks (i + 1) results

/-- Function `FormatDefault`, as the sequence of what it prints. -/
def FormatDefault (results : List Result) (options : List FormatterOption) : List Printed :=
  let (showStatistics, showSuccessOutput, includePassedChecks) :=
    readOptions options (true, true, false)
  if results.length == 0 || results.length == countPassedResults results then
    (if showStatistics then [Printed.statistics] else []) ++
      (if showSuccessOutput then [Printed.success] else [])
  else
    printChecks includePassedChecks 0 results ++
      (if showStatistics then [Printed.statistics] else []) ++
      [Printed.problems ((results.length : Int) - (countPassedResults results : Int))]

end formatters

/-! ## Sample inputs for the remaining rules -/

namespace sample

open block

/-- Case mapping on ASCII letters, character by character. -/
def asciiLower (s : String) : String := String.mk (s.data.map Char.toLower)

/-- Upper-casing on ASCII letters, character by character. -/
def asciiUpper (s : String) : String := String.mk (s.data.map Char.toUpper)

/-- The strings functions on ASCII text. -/
def strs : GoStrings where
  ToLower := asciiLower
  ToUpper := asciiUpper
  EqualFold := fun s t => asciiLower s == asciiLower t

/-- The block `resource "problem" "x"` with `bad = "1"` of setup_test.go. -/
def problemBad : Block :=
  .mk "resource" "problem" ["x"] (rangeAt 2 4) [⟨"bad", .string "1", rangeAt 3 3⟩] []

/-- The block `resource "problem" "x"` without attributes. -/
def problemGood : Block :=
  .mk "resource" "problem" ["x"] (rangeAt 2 4) [] []

/-- Scanner options that exclude nothing and override nothing. -/
def plainOptions : scanner.Options :=
  { excludedRuleIDs := [], includeIgnored := false, includePassed := false,
    severityOverrides := [] }

/-- An SQS queue policy without a `policy` attribute. -/
def sqsNoPolicy : Block :=
  .mk "resource" "aws_sqs_queue_policy" ["no_policy"] (rangeAt 1 3)
    [⟨"queue_url", .unknown, rangeAt 2 2⟩] []

/-- An SQS queue policy whose `policy` is unknown. -/
def sqsUnknownPolicy : Block :=
  .mk "resource" "aws_sqs_queue_policy" ["unknown_policy"] (rangeAt 1 4)
    [⟨"queue_url", .unknown, rangeAt 2 2⟩, ⟨"policy", .unknown, rangeAt 3 3⟩] []

/-- The policy document of the bad example of AWS047. -/
def sqsBadJSON : String :=
  "\x7b\n  \"Statement\": [\n    \x7b\n      \"Effect\": \"Allow\",\n      \"Principal\": \"*\",\n      \"Action\": \"*\"\n    \x7d\n  ]\n\x7d\n"

/-- The policy document of the good example of AWS047. -/
def sqsGoodJSON : String :=
  "\x7b\n  \"Statement\": [\n    \x7b\n      \"Effect\": \"Allow\",\n      \"Principal\": \"*\",\n      \"Action\": \"sqs:SendMessage\"\n    \x7d\n  ]\n\x7d\n"

/-- What `json.Unmarshal` gives on the two documented policy documents; any
other text counts as not parsing. -/
def unmarshal (raw : String) : Option rules.SqsPolicy :=
  if raw == sqsBadJSON then some ⟨[⟨"Allow", "*"⟩]⟩
  else if raw == sqsGoodJSON then some ⟨[⟨"Allow", "sqs:SendMessage"⟩]⟩
  else none

/-- The attribute `policy` of the bad example of AWS047. -/
def sqsBadPolicy : Attribute := ⟨"policy", .string sqsBadJSON, rangeAt 4 14⟩

/-- Bad example of AWS047. -/
def sqsBad : Block :=
  .mk "resource" "aws_sqs_queue_policy" ["bad_example"] (rangeAt 1 15)
    [⟨"queue_url", .unknown, rangeAt 2 2⟩, sqsBadPolicy] []

/-- Good example of AWS047. -/
def sqsGood : Block :=
  .mk "resource" "aws_sqs_queue_policy" ["good_example"] (rangeAt 1 15)
    [⟨"queue_url", .unknown, rangeAt 2 2⟩, ⟨"policy", .string sqsGoodJSON, rangeAt 4 14⟩] []

/-- An Elasticsearch domain without a `domain_endpoint_options` block. -/
def elasticsearchBare : Block :=
  .mk "resource" "aws_elasticsearch_domain" ["bare"] (rangeAt 1 3)
    [⟨"domain_name", .string "domain-foo", rangeAt 2 2⟩] []

/-- An Elasticsearch domain with an empty `domain_endpoint_options` block. -/
def elasticsearchNoAttr : Block :=
  .mk "resource" "aws_elasticsearch_domain" ["no_attr"] (rangeAt 1 6)
    [⟨"domain_name", .string "domain-foo", rangeAt 2 2⟩]
    [.mk "domain_endpoint_options" "" [] (rangeAt 4 5) [] []]

/-- Good example of AWS051. -/
def rdsGood : Block :=
  .mk "resource" "aws_rds_cluster" ["good_example"] (rangeAt 1 5)
    [⟨"name", .string "bar", rangeAt 2 2⟩,
     ⟨"kms_key_id", .string
        "arn:aws:kms:us-west-2:111122223333:key/1234abcd-12ab-34cd-56ef-1234567890ab",
        rangeAt 3 3⟩,
     ⟨"storage_encrypted", .bool true, rangeAt 4 4⟩] []

/-- Bad example of AWS051. -/
def rdsBad : Block :=
  .mk "resource" "aws_rds_cluster" ["bad_example"] (rangeAt 1 4)
    [⟨"name", .string "bar", rangeAt 2 2⟩, ⟨"kms_key_id", .string "", rangeAt 3 3⟩] []

/-- The attribute `encryption_type = "NONE"` of the bad example of AWS024. -/
def encryptionNone : Attribute := ⟨"encryption_type", .string "NONE", rangeAt 2 2⟩

/-- Bad example of AWS024. -/
def kinesisBad : Block :=
  .mk "resource" "aws_kinesis_stream" ["bad_example"] (rangeAt 1 3) [encryptionNone] []

/-- Good example of AWS024. -/
def kinesisGood : Block :=
  .mk "resource" "aws_kinesis_stream" ["good_example"] (rangeAt 1 4)
    [⟨"encryption_type", .string "KMS", rangeAt 2 2⟩,
     ⟨"kms_key_id", .string "my/special/key", rangeAt 3 3⟩] []

/-- A CodeBuild project with an unencrypted secondary artifact and an
`artifacts` block that produces nothing. -/
def codebuild : Block :=
  .mk "resource" "aws_codebuild_project" ["project"] (rangeAt 1 12) []
    [.mk "artifacts" "" [] (rangeAt 2 5)
       [⟨"type", .string "no_artifacts", rangeAt 3 3⟩,
        ⟨"encryption_disabled", .bool true, rangeAt 4 4⟩] [],
     .mk "secondary_artifacts" "" [] (rangeAt 6 9)
       [⟨"type", .string "S3", rangeAt 7 7⟩,
        ⟨"encryption_disabled", .bool true, rangeAt 8 8⟩] [],
     .mk "secondary_artifacts" "" [] (rangeAt 10 11)
       [⟨"type", .string "S3", rangeAt 11 11⟩] []]

/-- An EKS cluster without an `encryption_config` block. -/
def eksBare : Block :=
  .mk "resource" "aws_eks_cluster" ["bare"] (rangeAt 1 3)
    [⟨"name", .string "bad_example_cluster", rangeAt 2 2⟩] []

/-- An EKS cluster that encrypts secrets with a key. -/
def eksGood : Block :=
  .mk "resource" "aws_eks_cluster" ["good_example"] (rangeAt 1 9) []
    [.mk "encryption_config" "" [] (rangeAt 2 8)
       [⟨"resources", .list [.string "secrets"], rangeAt 3 3⟩]
       [.mk "provider" "" [] (rangeAt 4 6)
          [⟨"key_arn", .string "arn:aws:kms:us-west-2:111122223333:key/1234abcd", rangeAt 5 5⟩]
          []]]

/-- An Athena database without an `encryption_configuration` block. -/
def athenaDatabase : Block :=
  .mk "resource" "aws_athena_database" ["bad_example"] (rangeAt 1 4)
    [⟨"name", .string "database_name", rangeAt 2 2⟩] []

/-- An Athena workgroup whose result configuration has no encryption. -/
def athenaWorkgroup : Block :=
  .mk "resource" "aws_athena_workgroup" ["bad_example"] (rangeAt 1 9)
    [⟨"name", .string "example", rangeAt 2 2⟩]
    [.mk "configuration" "" [] (rangeAt 3 8) []
       [.mk "result_configuration" "" [] (rangeAt 4 7)
          [⟨"output_location", .string "s3://bucket/output/", rangeAt 5 5⟩] []]]

/-- A result with status Ignored. -/
def ignoredFinding : result.Result := { findingA with Status := result.Ignored }

end sample

/-! ## Statements used by the theorems -/

namespace block

/-- A block has neither an attribute nor a child block of a given name (the
absent block has none of either). -/
def Lacks (B : Option Block) (N : String) : Prop :=
  match B with
  | none => True
  | some b => (∀ a ∈ b.attributes, a.name ≠ N) ∧ (∀ c ∈ b.children, c.kind ≠ N)

end block

namespace rules

open block result

/-- The redirect chain as AWS004 documents it: the first `default_action`
child has a string attribute `type` equal to "redirect", and that child has a
first `redirect` child block with a string attribute `protocol` equal to
"HTTPS". -/
def RedirectsToHTTPS (b : Block) : Prop :=
  ∃ action typeAttr redirect protocolAttr,
    Block.GetBlock b "default_action" = some action ∧
    Block.GetAttribute action "type" = some typeAttr ∧
    typeAttr.value = Value.string "redirect" ∧
    Block.GetBlock action "redirect" = some redirect ∧
    Block.GetAttribute redirect "protocol" = some protocolAttr ∧
    protocolAttr.value = Value.string "HTTPS"

end rules

namespace rules

open block result

/-- What GEN003 reports, in the words of its documentation: an attribute of a
block with type label `typeLabel` that is not whitelisted for it, whose name
is classified as sensitive, and whose value is a string that is not empty. -/
def GEN003Flags (IsSensitiveAttribute : String → Bool) (typeLabel : String) (a : Attribute) :
    Bool :=
  !sensitiveWhitelist.contains (typeLabel, a.name) && IsSensitiveAttribute a.name &&
    (match a.value with
     | .string s => s != ""
     | _ => false)

end rules

namespace rules

open block result

/-- The statements AWS047 reports: Effect "allow" ignoring case and Action
exactly "*" or exactly "sqs:*". -/
def SqsStatement.isWildcardAllow (strs : GoStrings) (statement : SqsStatement) : Bool :=
  strs.ToLower statement.Effect == "allow" &&
    (statement.Action == "*" || statement.Action == "sqs:*")

/-- The artifact blocks of a CodeBuild project: all its `secondary_artifacts`
children in order, followed by its first `artifacts` child if present. -/
def artifactBlocks (b : Block) : List Block :=
  Block.GetBlocks b "secondary_artifacts" ++ (Block.GetBlock b "artifacts").toList

/-- The `type` attribute of an artifact block is a string that equals
"NO_ARTIFACTS" ignoring case. -/
def typeIsNoArtifacts (strs : GoStrings) (artifactBlock : Block) : Bool :=
  match Block.GetAttribute (some artifactBlock) "type" with
  | some a =>
    (match a.value with
     | .string s => strs.EqualFold s "NO_ARTIFACTS"
     | _ => false)
  | none => false

/-- An EKS cluster that passes AWS066, in the words of the rule: an
`encryption_config` child block with a `resources` attribute that contains
"secrets" and a `provider` child block whose `key_arn` attribute is present and
not empty. -/
def EncryptsSecrets (b : Block) : Prop :=
  ∃ config, Block.GetBlock b "encryption_config" = some config ∧
    (∃ resources, Block.GetAttribute (some config) "resources" = some resources ∧
      Attribute.Contains (some resources) "secrets" = true) ∧
    ∃ providerBlock, Block.GetBlock (some config) "provider" = some providerBlock ∧
      ∃ keyArn, Block.GetAttribute (some providerBlock) "key_arn" = some keyArn ∧
        Attribute.IsEmpty (some keyArn) = false

end rules

namespace formatters

open result

/-- The number in the closing line "potential problems detected", if that line
is printed. -/
def problemCount (out : List Printed) : Option Int :=
  out.findSome? fun p =>
    match p with
    | .problems count => some count
    | _ => none

/-- Whether an individual check is printed. -/
def printsCheck (out : List Printed) : Bool :=
  out.any fun p =>
    match p with
    | .check _ _ _ => true
    | _ => false

end formatters

namespace rules

open block result

/-- The number of findings of AWS066, test by test in the order of the source:
one for a missing `encryption_config`; else one for missing `resources`; else
one if the resources do not contain "secrets", plus one for the first of:
missing `provider`, missing `key_arn`, empty `key_arn`. -/
def eksFindingCount (b : Block) : Nat :=
  let config := Block.GetBlock (some b) "encryption_config"
  let providerBlock := Block.GetBlock config "provider"
  if Block.MissingChild (some b) "encryption_config" then 1
  else if Block.MissingChild config "resources" then 1
  else
    (if !Attribute.Contains (Block.GetAttribute config "resources") "secrets" then 1 else 0) +
    (if Block.MissingChild config "provider" then 1
     else if Block.MissingChild providerBlock "key_arn" then 1
     else if Attribute.IsEmpty (Block.GetAttribute providerBlock "key_arn") then 1
     else 0)

end rules

/-! ## Lemmas -/

namespace block

theorem Attribute.Type_some_string (a : Attribute) (s : String) (h : a.value = Value.string s) :
    Attribute.Type (some a) = CtyType.String := by
  simp [Attribute.Type, Attribute.Value, h]

theorem Attribute.Type_eq_String_iff (a : Option Attribute) :
    Attribute.Type a = CtyType.String ↔ ∃ s, Attribute.Value a = Value.string s := by
  unfold Attribute.Type
  cases h : Attribute.Value a <;> simp

theorem Attribute.Type_eq_Bool_iff (a : Option Attribute) :
    Attribute.Type a = CtyType.Bool ↔ ∃ b, Attribute.Value a = Value.bool b := by
  unfold Attribute.Type
  cases h : Attribute.Value a <;> simp

theorem Attribute.Type_eq_Number_iff (a : Option Attribute) :
    Attribute.Type a = CtyType.Number ↔ ∃ q, Attribute.Value a = Value.number q := by
  unfold Attribute.Type
  cases h : Attribute.Value a <;> simp

/-- The guard `Type() == cty.String` makes `AsString()` safe. -/
theorem Value.AsString_isSome_of_Type (a : Option Attribute)
    (h : Attribute.Type a = CtyType.String) : (Attribute.Value a).AsString.isSome = true := by
  obtain ⟨s, hs⟩ := (Attribute.Type_eq_String_iff a).1 h
  simp [hs, Value.AsString]

/-- The guard `Type() == cty.Bool` makes `True()` safe. -/
theorem Value.True_isSome_of_Type (a : Option Attribute)
    (h : Attribute.Type a = CtyType.Bool) : (Attribute.Value a).True.isSome = true := by
  obtain ⟨b, hb⟩ := (Attribute.Type_eq_Bool_iff a).1 h
  simp [hb, Value.True]

/-- The guard `Type() == cty.Number` makes `AsBigFloat()` safe. -/
theorem Value.AsBigFloat_isSome_of_Type (a : Option Attribute)
    (h : Attribute.Type a = CtyType.Number) : (Attribute.Value a).AsBigFloat.isSome = true := by
  obtain ⟨q, hq⟩ := (Attribute.Type_eq_Number_iff a).1 h
  simp [hq, Value.AsBigFloat]

end block

namespace result

open block

/-- The switch leaves the typed cases only through the default case: no typed
case is lost to a faulting accessor. -/
theorem typedRaw_eq_none_iff (attr : Option Attribute) :
    typedRaw attr = none ↔ Attribute.Type attr = CtyType.other := by
  unfold typedRaw Attribute.Type
  cases h : Attribute.Value attr <;> simp [Value.AsString, Value.True, Value.AsBigFloat]

theorem typedRaw_string (attr : Option Attribute) (s : String)
    (h : Attribute.Value attr = Value.string s) :
    typedRaw attr = some ("string", Raw.string s) := by
  simp [typedRaw, Attribute.Type, h, Value.AsString]

theorem typedRaw_bool (attr : Option Attribute) (b : Bool)
    (h : Attribute.Value attr = Value.bool b) :
    typedRaw attr = some ("bool", Raw.bool b) := by
  simp [typedRaw, Attribute.Type, h, Value.True]

theorem typedRaw_number (attr : Option Attribute) (q : Rat)
    (h : Attribute.Value attr = Value.number q) :
    typedRaw attr = some ("number", Raw.float64 q) := by
  simp [typedRaw, Attribute.Type, h, Value.AsBigFloat]

end result

namespace block

/-- The test `attr != nil && attr.Type() == cty.String && attr.Value().AsString() == t`
holds exactly of a present attribute whose value is the string `t`. -/
theorem Attribute.isStringEq_iff (x : Option Attribute) (t : String) :
    (x.isSome && Attribute.Type x == CtyType.String &&
        (Attribute.Value x).AsString == some t) = true ↔
      ∃ a, x = some a ∧ a.value = Value.string t := by
  cases x with
  | none => simp
  | some a =>
    simp only [Attribute.Type, Attribute.Value]
    cases hv : a.value <;> simp [Value.AsString, hv]

end block

namespace rules

open block result

/-- C1: for every block with a `protocol` attribute whose value is the string
"HTTP" and without a `default_action` child block, the AWS004 check adds
exactly one result to the set; it has severity Error, status Failed and the
range of the `protocol` attribute. -/
theorem AWSPlainHTTP_flags_http_at_attribute (f : GoFmt) (set : result.Set) (b : Block)
    (a : Attribute) (hattr : Block.GetAttribute b "protocol" = some a)
    (hval : a.value = Value.string "HTTP")
    (haction : Block.GetBlock b "default_action" = none) :
    ∃ r, AWSPlainHTTP f set b = set ++ [r] ∧ r.Severity = severity.Error ∧
      r.Status = result.Failed ∧ r.Range = a.range := by
  have hrun : AWSPlainHTTP f set b = set ++
      [Result.WithAttributeAnnotation f
        (((New.WithDescription ("Resource \x27" ++ Block.FullName b ++
          "\x27 uses plain HTTP instead of HTTPS.")).WithSeverity severity.Error).WithRange
            a.range) (some a)] := by
    simp [AWSPlainHTTP, hattr, haction, hval, Attribute.Type, Attribute.Value, Value.AsString,
      Set.Add, Attribute.Range]
  refine ⟨_, hrun, ?_, ?_, ?_⟩ <;>
    simp [Result.WithAttributeAnnotation, typedRaw, Attribute.Type, Attribute.Value, hval,
      Value.AsString, Result.WithRange, Result.WithSeverity, Result.WithDescription, New]

/-- Witness of C1 at the documented bad example of AWS004. -/
theorem AWSPlainHTTP_flags_http_at_attribute_witness :
    Block.GetAttribute sample.albBad "protocol" = some sample.protocolHTTP ∧
    sample.protocolHTTP.value = Value.string "HTTP" ∧
    Block.GetBlock sample.albBad "default_action" = none ∧
    ∃ r, AWSPlainHTTP sample.fmt [] sample.albBad = [] ++ [r] ∧ r.Severity = severity.Error ∧
      r.Status = result.Failed ∧ r.Range = sample.protocolHTTP.range :=
  ⟨rfl, rfl, rfl,
    AWSPlainHTTP_flags_http_at_attribute sample.fmt [] sample.albBad sample.protocolHTTP
      rfl rfl rfl⟩

/-- C2: for every block whose `protocol` attribute is present with a string
value other than "HTTP" (such as "HTTPS"), the AWS004 check adds no result,
whatever else the block holds. -/
theorem AWSPlainHTTP_passes_other_protocol (f : GoFmt) (set : result.Set) (b : Block)
    (a : Attribute) (s : String) (hattr : Block.GetAttribute b "protocol" = some a)
    (hval : a.value = Value.string s) (hs : s ≠ "HTTP") :
    AWSPlainHTTP f set b = set := by
  simp [AWSPlainHTTP, hattr, hval, hs, Attribute.Type, Attribute.Value, Value.AsString]

/-- Witness of C2 at the documented good example of AWS004. -/
theorem AWSPlainHTTP_passes_other_protocol_witness :
    Block.GetAttribute sample.albGood "protocol" = some sample.protocolHTTPS ∧
    sample.protocolHTTPS.value = Value.string "HTTPS" ∧ "HTTPS" ≠ "HTTP" ∧
    AWSPlainHTTP sample.fmt [] sample.albGood = [] :=
  ⟨rfl, rfl, by decide,
    AWSPlainHTTP_passes_other_protocol sample.fmt [] sample.albGood sample.protocolHTTPS "HTTPS"
      rfl rfl (by decide)⟩

/-- C3: for every block without a `protocol` attribute and without a
`default_action` child block, the AWS004 check adds exactly one result, of
severity Error, whose range is the block's own range and whose
RangeAnnotation is empty. -/
theorem AWSPlainHTTP_flags_missing_protocol_at_block (f : GoFmt) (set : result.Set) (b : Block)
    (hattr : Block.GetAttribute b "protocol" = none)
    (haction : Block.GetBlock b "default_action" = none) :
    ∃ r, AWSPlainHTTP f set b = set ++ [r] ∧ r.Severity = severity.Error ∧
      r.Range = Block.Range b ∧ Result.RangeAnnotation r = "" := by
  have hrun : AWSPlainHTTP f set b = set ++
      [((New.WithDescription ("Resource \x27" ++ Block.FullName b ++
          "\x27 uses plain HTTP instead of HTTPS.")).WithSeverity severity.Error).WithRange
            (Block.Range b)] := by
    simp [AWSPlainHTTP, hattr, haction, Set.Add]
  refine ⟨_, hrun, ?_, ?_, ?_⟩ <;>
    simp [Result.WithRange, Result.WithSeverity, Result.WithDescription, New, Result.zero]

/-- Witness of C3 at a listener without attributes or child blocks. -/
theorem AWSPlainHTTP_flags_missing_protocol_at_block_witness :
    Block.GetAttribute sample.albEmpty "protocol" = none ∧
    Block.GetBlock sample.albEmpty "default_action" = none ∧
    ∃ r, AWSPlainHTTP sample.fmt [] sample.albEmpty = [] ++ [r] ∧
      r.Severity = severity.Error ∧ r.Range = Block.Range sample.albEmpty ∧
      Result.RangeAnnotation r = "" :=
  ⟨rfl, rfl, AWSPlainHTTP_flags_missing_protocol_at_block sample.fmt [] sample.albEmpty rfl rfl⟩

/-- C4: for every block whose `protocol` attribute is missing or is the string
"HTTP", the AWS004 check adds no result if the redirect chain to HTTPS is
complete (first `default_action` child with string `type` "redirect", whose
first `redirect` child has string `protocol` "HTTPS"), and adds exactly one
result if any link of the chain is absent or has another value. -/
theorem AWSPlainHTTP_redirect_chain (f : GoFmt) (set : result.Set) (b : Block)
    (hprotocol : Block.GetAttribute b "protocol" = none ∨
      ∃ a, Block.GetAttribute b "protocol" = some a ∧ a.value = Value.string "HTTP") :
    (RedirectsToHTTPS b → AWSPlainHTTP f set b = set) ∧
    (¬ RedirectsToHTTPS b → ∃ r, AWSPlainHTTP f set b = set ++ [r]) := by
  have houter : ((Block.GetAttribute b "protocol").isNone ||
      (Attribute.Type (Block.GetAttribute b "protocol") == CtyType.String &&
        (Attribute.Value (Block.GetAttribute b "protocol")).AsString == some "HTTP")) = true := by
    rcases hprotocol with h | ⟨a, h, hv⟩
    · simp [h]
    · simp [h, hv, Attribute.Type, Attribute.Value, Value.AsString]
  constructor
  · rintro ⟨action, typeAttr, redirect, protocolAttr, h1, h2, h3, h4, h5, h6⟩
    have c2 := (Attribute.isStringEq_iff (Block.GetAttribute (some action) "type")
      "redirect").2 ⟨typeAttr, h2, h3⟩
    have c4 := (Attribute.isStringEq_iff (Block.GetAttribute (some redirect) "protocol")
      "HTTPS").2 ⟨protocolAttr, h5, h6⟩
    simp only [AWSPlainHTTP, houter, if_true, h1, h4, Option.isSome_some, c2, c4]
  · intro hno
    simp only [AWSPlainHTTP, houter, if_true, Set.Add]
    split_ifs with c1 c2 c3 c4
    · exfalso
      apply hno
      obtain ⟨action, h1⟩ := Option.isSome_iff_exists.1 c1
      rw [h1] at c2 c3 c4
      obtain ⟨typeAttr, h2, h3⟩ := (Attribute.isStringEq_iff _ _).1 c2
      obtain ⟨redirect, h4⟩ := Option.isSome_iff_exists.1 c3
      rw [h4] at c4
      obtain ⟨protocolAttr, h5, h6⟩ := (Attribute.isStringEq_iff _ _).1 c4
      exact ⟨action, typeAttr, redirect, protocolAttr, h1, h2, h3, h4, h5, h6⟩
    all_goals exact ⟨_, rfl⟩

/-- Witness of C4 at a plain-HTTP listener that redirects to HTTPS. -/
theorem AWSPlainHTTP_redirect_chain_witness :
    (Block.GetAttribute sample.albRedirect "protocol" = none ∨
      ∃ a, Block.GetAttribute sample.albRedirect "protocol" = some a ∧
        a.value = Value.string "HTTP") ∧
    (RedirectsToHTTPS sample.albRedirect → AWSPlainHTTP sample.fmt [] sample.albRedirect = []) ∧
    (¬ RedirectsToHTTPS sample.albRedirect →
      ∃ r, AWSPlainHTTP sample.fmt [] sample.albRedirect = [] ++ [r]) :=
  ⟨Or.inr ⟨sample.protocolHTTP, rfl, rfl⟩,
    AWSPlainHTTP_redirect_chain sample.fmt [] sample.albRedirect
      (Or.inr ⟨sample.protocolHTTP, rfl, rfl⟩)⟩

/-- C5 (the code departs from the claim): on a CloudFront distribution without
a `viewer_certificate` block the AWS021 check adds two results, not one: the
finding for the missing block, at the block's range, and then, falling through
to the attribute test with the absent block, the finding for the missing
`minimum_protocol_version`, at the absent block's zero range. -/
theorem AWSCloudFrontOutdatedProtocol_missing_block_adds_two :
    Block.GetBlock sample.cloudfrontBare "viewer_certificate" = none ∧
    (AWSCloudFrontOutdatedProtocol [] sample.cloudfrontBare).length = 2 ∧
    (AWSCloudFrontOutdatedProtocol [] sample.cloudfrontBare).map Result.Range =
      [Block.Range sample.cloudfrontBare, Range.zero] := by
  refine ⟨rfl, ?_, ?_⟩ <;>
    simp [AWSCloudFrontOutdatedProtocol, Block.GetBlock, Block.GetAttribute, sample.cloudfrontBare,
      Block.children, Set.Add, Result.WithRange, Result.WithSeverity, Result.WithDescription,
      Block.Range]

end rules

namespace result

open block

/-- C6: `New()` returns a result whose Status is Failed and whose every other
field is the zero value (empty RuleID, RuleSummary, RuleProvider, Impact,
Resolution, Description, RangeAnnotation and Severity, no Links, zero Range);
in particular `New().Passed()` is false. -/
theorem New_is_failed_and_otherwise_zero :
    New.Status = Failed ∧ New.RuleID = "" ∧ New.RuleSummary = "" ∧ New.RuleProvider = "" ∧
    New.Impact = "" ∧ New.Resolution = "" ∧ New.Description = "" ∧
    Result.RangeAnnotation New = "" ∧ New.Severity = "" ∧ New.Links = [] ∧
    New.Range = Range.zero ∧ New.Passed = false := by
  refine ⟨rfl, rfl, rfl, rfl, rfl, rfl, rfl, rfl, rfl, rfl, rfl, ?_⟩
  simp [Result.Passed, New, Failed, Passed]

/-- C7: `WithAttributeAnnotation(attr)` takes a typed snapshot of the attribute.
For a string value `s` the RangeAnnotation becomes "[string] " followed by `s`
in Go double-quoted syntax; for a bool, "[bool] true" or "[bool] false"; for a
number of integer value `n` with |n| < 10^6, "[number] " followed by the decimal
digits of `n` (given that `%#v` prints such a float64 as its digits); for every
other value (absent, also of a nil attribute, unknown, list, map) the result is
returned unchanged. In every case no field other than RangeAnnotation is
modified. -/
theorem WithAttributeAnnotation_typed_snapshot (f : GoFmt) (r : Result)
    (attr : Option Attribute)
    (hdigits : ∀ n : Int, |n| < 10 ^ 6 → f.Float64 (n : Rat) = toString n) :
    (∀ s, Attribute.Value attr = Value.string s →
      Result.RangeAnnotation ( Result.WithAttributeAnnotation f r attr) =
        "[string] " ++ f.Quote s) ∧
    (∀ b, Attribute.Value attr = Value.bool b →
      Result.RangeAnnotation ( Result.WithAttributeAnnotation f r attr) =
        if b then "[bool] true" else "[bool] false") ∧
    (∀ n : Int, |n| < 10 ^ 6 → Attribute.Value attr = Value.number (n : Rat) →
      Result.RangeAnnotation ( Result.WithAttributeAnnotation f r attr) =
        "[number] " ++ toString n) ∧
    ((Attribute.Value attr = Value.absent ∨ Attribute.Value attr = Value.unknown ∨
        (∃ xs, Attribute.Value attr = Value.list xs) ∨
        (∃ kvs, Attribute.Value attr = Value.map kvs)) →
      Result.WithAttributeAnnotation f r attr = r) ∧
    (( Result.WithAttributeAnnotation f r attr).RuleID = r.RuleID ∧
      ( Result.WithAttributeAnnotation f r attr).RuleSummary = r.RuleSummary ∧
      ( Result.WithAttributeAnnotation f r attr).RuleProvider = r.RuleProvider ∧
      ( Result.WithAttributeAnnotation f r attr).Impact = r.Impact ∧
      ( Result.WithAttributeAnnotation f r attr).Resolution = r.Resolution ∧
      ( Result.WithAttributeAnnotation f r attr).Links = r.Links ∧
      ( Result.WithAttributeAnnotation f r attr).Range = r.Range ∧
      ( Result.WithAttributeAnnotation f r attr).Description = r.Description ∧
      ( Result.WithAttributeAnnotation f r attr).Severity = r.Severity ∧
      ( Result.WithAttributeAnnotation f r attr).Status = r.Status) := by
  have hs : "[" ++ "string" ++ "] " = "[string] " := by decide
  have hb : "[" ++ "bool" ++ "] " = "[bool] " := by decide
  have hn : "[" ++ "number" ++ "] " = "[number] " := by decide
  refine ⟨?_, ?_, ?_, ?_, ?_⟩
  · intro s h
    simp only [ Result.WithAttributeAnnotation, typedRaw_string attr s h, GoFmt.sharpV, hs]
  · intro b h
    simp only [ Result.WithAttributeAnnotation, typedRaw_bool attr b h, GoFmt.sharpV, hb]
    cases b
    · exact (by decide : "[bool] " ++ "false" = "[bool] false")
    · exact (by decide : "[bool] " ++ "true" = "[bool] true")
  · intro n hlt h
    simp only [ Result.WithAttributeAnnotation, typedRaw_number attr _ h, GoFmt.sharpV, hn,
      hdigits n hlt]
  · intro h
    have hnone : typedRaw attr = none := by
      rw [typedRaw_eq_none_iff]
      unfold Attribute.Type
      rcases h with h | h | ⟨xs, h⟩ | ⟨kvs, h⟩ <;> simp [h]
    simp only [ Result.WithAttributeAnnotation, hnone]
  · unfold Result.WithAttributeAnnotation
    cases typedRaw attr with
    | none => exact ⟨rfl, rfl, rfl, rfl, rfl, rfl, rfl, rfl, rfl, rfl⟩
    | some p => exact ⟨rfl, rfl, rfl, rfl, rfl, rfl, rfl, rfl, rfl, rfl⟩

/-- Witness of C7 at the sample rendering, a fresh result and the attribute
`protocol = "HTTP"`. -/
theorem WithAttributeAnnotation_typed_snapshot_witness :
    (∀ n : Int, |n| < 10 ^ 6 → sample.fmt.Float64 (n : Rat) = toString n) ∧
    Result.RangeAnnotation ( Result.WithAttributeAnnotation sample.fmt New
      (some sample.protocolHTTP)) = "[string] " ++ sample.fmt.Quote "HTTP" :=
  have hdigits : ∀ n : Int, |n| < 10 ^ 6 → sample.fmt.Float64 (n : Rat) = toString n := by
    intro n _
    simp [sample.fmt]
  ⟨hdigits,
    (WithAttributeAnnotation_typed_snapshot sample.fmt New (some sample.protocolHTTP)
      hdigits).1 "HTTP" rfl⟩

/-- C8: `HashCode()` is the string form of the result's Range, followed by ":",
followed by its RuleID; so two results with equal Range and equal RuleID have
equal hash codes, whatever their other fields are. -/
theorem HashCode_function_of_range_and_rule (f : GoFmt) (r₁ r₂ : Result)
    (hrange : r₁.Range = r₂.Range) (hrule : r₁.RuleID = r₂.RuleID) :
    r₁.HashCode f = f.RangeString r₁.Range ++ ":" ++ r₁.RuleID ∧
    r₁.HashCode f = r₂.HashCode f := by
  refine ⟨rfl, ?_⟩
  simp only [Result.HashCode, hrange, hrule]

/-- Witness of C8 at two results that agree on range and rule only. -/
theorem HashCode_function_of_range_and_rule_witness :
    sample.findingA.Range = sample.findingB.Range ∧
    sample.findingA.RuleID = sample.findingB.RuleID ∧
    sample.findingA.Description ≠ sample.findingB.Description ∧
    sample.findingA.Status ≠ sample.findingB.Status ∧
    sample.findingA.HashCode sample.fmt = "main.tf:2-2:AWS004" ∧
    sample.findingA.HashCode sample.fmt = sample.findingB.HashCode sample.fmt :=
  ⟨rfl, rfl, by decide, by decide, by decide,
    (HashCode_function_of_range_and_rule sample.fmt sample.findingA sample.findingB
      rfl rfl).2⟩

/-- C9: for every result, `Passed()` is true if and only if the Status equals
Passed; it is false for Failed, for Ignored and for any other status string;
and `WithStatus(s).Passed()` is `s == Passed` for every status `s`. -/
theorem Passed_iff_status_passed (r : Result) (s : Status) :
    (r.Passed = true ↔ r.Status = Passed) ∧
    (r.Status = Failed → r.Passed = false) ∧
    (r.Status = Ignored → r.Passed = false) ∧
    (r.Status ≠ Passed → r.Passed = false) ∧
    (r.WithStatus s).Passed = (s == Passed) := by
  refine ⟨?_, ?_, ?_, ?_, rfl⟩
  · simp [Result.Passed]
  · intro h
    simp [Result.Passed, h, Failed, Passed]
  · intro h
    simp [Result.Passed, h, Ignored, Passed]
  · intro h
    simp [Result.Passed, h]

end result

namespace block

/-- C10: for every block B, the absent block included, and every name N,
`B.MissingChild(N)` is the negation of `B.HasChild(N)`; and if B has neither an
attribute nor a child block named N, then `B.GetAttribute(N)` is nil,
`B.MissingChild(N)` is true, and the chained `B.GetBlock(N).GetAttribute(M)`
is nil for every M (all of these being total functions). -/
theorem MissingChild_complement_and_nil_safe (B : Option Block) (N : String)
    (hlacks : Lacks B N) :
    (∀ B' : Option Block, ∀ N' : String, Block.MissingChild B' N' = !Block.HasChild B' N') ∧
    Block.GetAttribute B N = none ∧ Block.MissingChild B N = true ∧
    ∀ M, Block.GetAttribute (Block.GetBlock B N) M = none := by
  have hcompl : ∀ B' : Option Block, ∀ N' : String,
      Block.MissingChild B' N' = !Block.HasChild B' N' := by
    intro B' N'
    cases B' <;> simp [Block.MissingChild, Block.HasChild]
  cases B with
  | none => exact ⟨hcompl, rfl, rfl, fun _ => rfl⟩
  | some b =>
    obtain ⟨hattrs, hchildren⟩ := hlacks
    have hattr : Block.GetAttribute (some b) N = none := by
      simp only [Block.GetAttribute, List.find?_eq_none]
      intro a ha
      simpa using hattrs a ha
    have hblock : Block.GetBlock (some b) N = none := by
      simp only [Block.GetBlock, List.find?_eq_none]
      intro c hc
      simpa using hchildren c hc
    refine ⟨hcompl, hattr, ?_, ?_⟩
    · simp [Block.MissingChild, Block.HasChild, hattr, hblock]
    · intro M
      rw [hblock]
      rfl

/-- Witness of C10 at a listener that only has a `protocol` attribute, asked
for `default_action`. -/
theorem MissingChild_complement_and_nil_safe_witness :
    Lacks (some sample.albBad) "default_action" ∧
    Block.GetAttribute (some sample.albBad) "default_action" = none ∧
    Block.MissingChild (some sample.albBad) "default_action" = true ∧
    ∀ M, Block.GetAttribute (Block.GetBlock (some sample.albBad) "default_action") M = none :=
  have hlacks : Lacks (some sample.albBad) "default_action" := by
    simp [Lacks, sample.albBad, Block.attributes, Block.children, sample.protocolHTTP]
  ⟨hlacks,
    (MissingChild_complement_and_nil_safe (some sample.albBad) "default_action" hlacks).2⟩

end block

namespace block

/-- C11: for every attribute A, if A's value is of the boolean variant then
`A.IsTrue()` is the negation of `A.IsFalse()`; if A is nil or of any
non-boolean variant (the strings "true" and "false", numbers and unknown
included) both are false. -/
theorem IsTrue_IsFalse_only_on_booleans (A : Option Attribute) :
    (∀ b, Attribute.Value A = Value.bool b → Attribute.IsTrue A = !Attribute.IsFalse A) ∧
    ((∀ b, Attribute.Value A ≠ Value.bool b) →
      Attribute.IsTrue A = false ∧ Attribute.IsFalse A = false) ∧
    (A = none → Attribute.IsTrue A = false ∧ Attribute.IsFalse A = false) ∧
    (∀ s, Attribute.Value A = Value.string s →
      Attribute.IsTrue A = false ∧ Attribute.IsFalse A = false) ∧
    (∀ q, Attribute.Value A = Value.number q →
      Attribute.IsTrue A = false ∧ Attribute.IsFalse A = false) ∧
    (Attribute.Value A = Value.unknown →
      Attribute.IsTrue A = false ∧ Attribute.IsFalse A = false) := by
  refine ⟨?_, ?_, ?_, ?_, ?_, ?_⟩
  · intro b h
    simp [Attribute.IsTrue, Attribute.IsFalse, h]
  · intro h
    unfold Attribute.IsTrue Attribute.IsFalse
    cases hv : Attribute.Value A <;> simp
    exact absurd hv (h _)
  · intro h
    subst h
    exact ⟨rfl, rfl⟩
  · intro s h
    simp [Attribute.IsTrue, Attribute.IsFalse, h]
  · intro q h
    simp [Attribute.IsTrue, Attribute.IsFalse, h]
  · intro h
    simp [Attribute.IsTrue, Attribute.IsFalse, h]

end block

namespace rules

open block result

/-- C12 (the code departs from the claim): on the documented bad example of
GCP010, whose `enable_shielded_nodes` is the string "false", the check adds no
result, as it adds none on the good example with the string "true": the
attribute is present, and `IsFalse()` holds of the boolean false only. -/
theorem GkeShieldedNodesDisabled_string_false_not_flagged :
    Block.GetAttribute sample.gkeBad "enable_shielded_nodes" =
      some ⟨"enable_shielded_nodes", Value.string "false", sample.rangeAt 2 2⟩ ∧
    GkeShieldedNodesDisabled [] sample.gkeBad = [] ∧
    GkeShieldedNodesDisabled [] sample.gkeGood = [] := by
  refine ⟨rfl, ?_, ?_⟩ <;>
    simp [GkeShieldedNodesDisabled, Block.MissingChild, Block.HasChild, Block.GetAttribute,
      Block.GetBlock, sample.gkeBad, sample.gkeGood, Block.attributes, Block.children,
      Attribute.IsFalse, Attribute.Value]

/-- C13 (the code departs from the claim): on the documented good example of
AWS065, whose `kms_key_id` is present and unknown, the check adds one result,
at the range of that attribute: the attribute is not missing, and `IsEmpty()`
holds of an unknown value. -/
theorem AWSCloudtrailEncryptedAtRest_flags_unknown_key :
    Block.GetAttribute sample.cloudtrailGood "kms_key_id" = some sample.kmsKeyUnknown ∧
    sample.kmsKeyUnknown.value = Value.unknown ∧
    (AWSCloudtrailEncryptedAtRest sample.fmt [] sample.cloudtrailGood).length = 1 ∧
    (AWSCloudtrailEncryptedAtRest sample.fmt [] sample.cloudtrailGood).map Result.Range =
      [sample.kmsKeyUnknown.range] := by
  refine ⟨rfl, rfl, ?_, ?_⟩ <;>
    simp [AWSCloudtrailEncryptedAtRest, Block.MissingChild, Block.HasChild, Block.GetAttribute,
      Block.GetBlock, sample.cloudtrailGood, sample.kmsKeyUnknown, Block.attributes,
      Block.children, Block.kind, Attribute.IsEmpty, Attribute.Value, Set.Add,
      Result.WithAttributeAnnotation, typedRaw, Attribute.Type, Result.WithSeverity,
      Result.WithRange, Attribute.Range]

/-- C14 (the code departs from the claim): on an egress rule (`egress = true`)
and on a deny rule (`rule_action = "deny"`), each with `protocol = "all"` and
the open range "0.0.0.0/0" as `cidr_block`, the AWS050 check completes and adds
one result, at the range of `cidr_block`: the tests on `egress` and
`rule_action` have empty bodies. -/
theorem AWSOpenAllIngressNetworkACLRule_flags_egress_and_deny :
    Attribute.Value (Block.GetAttribute sample.aclEgress "egress") = Value.bool true ∧
    Attribute.Value (Block.GetAttribute sample.aclDeny "rule_action") = Value.string "deny" ∧
    sample.isOpenCidr (some sample.cidrOpen) = true ∧
    (AWSOpenAllIngressNetworkACLRule sample.fmt sample.isOpenCidr [] sample.aclEgress).map
      (List.map Result.Range) = some [sample.cidrOpen.range] ∧
    (AWSOpenAllIngressNetworkACLRule sample.fmt sample.isOpenCidr [] sample.aclDeny).map
      (List.map Result.Range) = some [sample.cidrOpen.range] := by
  refine ⟨rfl, rfl, rfl, ?_, ?_⟩ <;>
    simp [AWSOpenAllIngressNetworkACLRule, Block.GetAttribute, sample.aclEgress, sample.aclDeny,
      sample.cidrOpen, sample.isOpenCidr, Block.attributes, Attribute.Value, Value.AsString,
      Set.Add, Result.WithAttributeAnnotation, typedRaw, Attribute.Type, Result.WithSeverity,
      Result.WithRange, Attribute.Range]

end rules

namespace result

/-- A loop that adds `h a` to the set at every element `a` that passes the test
`p` adds, in order, the results of the elements that pass. -/
theorem Set.foldl_add_eq_filter_map {α : Type} (p : α → Bool) (h : α → Result) (l : List α)
    (set : result.Set) :
    l.foldl (fun set a => if p a then Set.Add set (h a) else set) set =
      set ++ (l.filter p).map h := by
  induction l generalizing set with
  | nil => simp
  | cons a l ih =>
    simp only [List.foldl_cons, ih, List.filter_cons]
    cases p a <;> simp [Set.Add]

end result

namespace rules

open block result

/-- C15: AWS039 enforces a minimum password length of 14. If
`minimum_password_length` is missing the check adds exactly one result; if it
is a number of integer value n it adds exactly one result when n < 14 and none
when n >= 14; if it is present but not a number it adds none. Every result it
adds has severity Warning and the block's range. (The conversion to float64 is
monotone and exact on integers up to 2^53.) -/
theorem AWSIAMPasswordMinimumLength_fourteen (Float64 : Rat → Rat) (set : result.Set)
    (b : Block) (hmono : Monotone Float64)
    (hexact : ∀ n : Int, |n| ≤ 2 ^ 53 → Float64 (n : Rat) = (n : Rat)) :
    (Block.GetAttribute b "minimum_password_length" = none →
      ∃ r, AWSIAMPasswordMinimumLength Float64 set b = set ++ [r] ∧
        r.Severity = severity.Warning ∧ r.Range = Block.Range b) ∧
    (∀ (a : Attribute) (n : Int), Block.GetAttribute b "minimum_password_length" = some a →
      a.value = Value.number (n : Rat) →
        (n < 14 → ∃ r, AWSIAMPasswordMinimumLength Float64 set b = set ++ [r] ∧
          r.Severity = severity.Warning ∧ r.Range = Block.Range b) ∧
        (14 ≤ n → AWSIAMPasswordMinimumLength Float64 set b = set)) ∧
    (∀ a : Attribute, Block.GetAttribute b "minimum_password_length" = some a →
      (∀ q, a.value ≠ Value.number q) → AWSIAMPasswordMinimumLength Float64 set b = set) ∧
    (∀ r ∈ AWSIAMPasswordMinimumLength Float64 set b,
      r ∈ set ∨ (r.Severity = severity.Warning ∧ r.Range = Block.Range b)) := by
  have h13 : Float64 13 = 13 := by
    have := hexact 13 (by norm_num)
    simpa using this
  have h14 : Float64 14 = 14 := by
    have := hexact 14 (by norm_num)
    simpa using this
  refine ⟨?_, ?_, ?_, ?_⟩
  · intro hnone
    exact ⟨((New.WithDescription ("Resource \x27" ++ Block.FullName b ++
        "\x27 does not have a minimum password length set.")).WithRange
          (Block.Range b)).WithSeverity severity.Warning,
      by simp [AWSIAMPasswordMinimumLength, hnone, Set.Add], rfl, rfl⟩
  · intro a n hattr hval
    constructor
    · intro hlt
      have hle : ((n : Int) : Rat) ≤ 13 := by
        have : n ≤ 13 := by omega
        exact_mod_cast this
      have hval14 : Float64 (n : Rat) < 14 :=
        lt_of_le_of_lt (h13 ▸ hmono hle) (by norm_num)
      exact ⟨((New.WithDescription ("Resource \x27" ++ Block.FullName b ++
          "\x27 has a minimum password length which is less than 14 characters.")).WithRange
            (Block.Range b)).WithSeverity severity.Warning,
        by simp [AWSIAMPasswordMinimumLength, hattr, hval, Attribute.Value, Value.Type,
          Value.AsBigFloat, hval14, Set.Add], rfl, rfl⟩
    · intro hge
      have hle : (14 : Rat) ≤ ((n : Int) : Rat) := by exact_mod_cast hge
      have hval14 : ¬ Float64 (n : Rat) < 14 := not_lt.2 (h14 ▸ hmono hle)
      simp [AWSIAMPasswordMinimumLength, hattr, hval, Attribute.Value, Value.Type,
        Value.AsBigFloat, hval14]
  · intro a hattr hnot
    simp only [AWSIAMPasswordMinimumLength, hattr, Attribute.Value]
    cases hv : a.value <;> simp [Value.Type]
    exact absurd hv (hnot _)
  · intro r hr
    unfold AWSIAMPasswordMinimumLength at hr
    simp only [Set.Add] at hr
    split_ifs at hr with c1 c2
    · rcases List.mem_append.1 hr with h | h
      · exact Or.inl h
      · right
        rw [List.mem_singleton.1 h]
        exact ⟨rfl, rfl⟩
    · split at hr
      · split_ifs at hr
        · rcases List.mem_append.1 hr with h | h
          · exact Or.inl h
          · right
            rw [List.mem_singleton.1 h]
            exact ⟨rfl, rfl⟩
        · exact Or.inl hr
      · exact Or.inl hr
    · exact Or.inl hr

/-- Witness of C15 at the exact conversion and a policy of length 13. -/
theorem AWSIAMPasswordMinimumLength_fourteen_witness :
    Monotone (id : Rat → Rat) ∧ (∀ n : Int, |n| ≤ 2 ^ 53 → id (n : Rat) = (n : Rat)) ∧
    ((13 : Int) < 14 →
      ∃ r, AWSIAMPasswordMinimumLength id [] (sample.passwordPolicy 13) = [] ++ [r] ∧
        r.Severity = severity.Warning ∧ r.Range = Block.Range (sample.passwordPolicy 13)) ∧
    ((14 : Int) ≤ 14 → AWSIAMPasswordMinimumLength id [] (sample.passwordPolicy 14) = []) :=
  ⟨monotone_id, fun _ _ => rfl,
    ((AWSIAMPasswordMinimumLength_fourteen id [] (sample.passwordPolicy 13) monotone_id
      (fun _ _ => rfl)).2.1 ⟨"minimum_password_length", Value.number 13, sample.rangeAt 2 2⟩ 13
        rfl (by simp)).1,
    ((AWSIAMPasswordMinimumLength_fourteen id [] (sample.passwordPolicy 14) monotone_id
      (fun _ _ => rfl)).2.1 ⟨"minimum_password_length", Value.number 14, sample.rangeAt 2 2⟩ 14
        rfl (by simp)).2⟩

end rules

namespace rules

open block result

/-- C16: AZU019 treats an unset retention as unlimited and requires at least 90
days when set. The inspected block is the block itself when its type label is
azurerm_mssql_database_extended_auditing_policy and its first
`extended_auditing_policy` child otherwise. If `retention_in_days` is missing
there, or the child is absent, no result is added; if it is a number of
integer value n, exactly one result (severity Error, range of the inspected
block) is added when n < 90 and none when n >= 90. -/
theorem AZUDatabaseAuditingRetention90Days_ninety (set : result.Set) (b : Block)
    (inspected : Option Block)
    (hinspected : inspected =
      if b.typeLabel = "azurerm_mssql_database_extended_auditing_policy" then some b
      else Block.GetBlock b "extended_auditing_policy") :
    (Block.GetAttribute inspected "retention_in_days" = none →
      AZUDatabaseAuditingRetention90Days set b = set) ∧
    (inspected = none → AZUDatabaseAuditingRetention90Days set b = set) ∧
    (∀ (a : Attribute) (n : Int), Block.GetAttribute inspected "retention_in_days" = some a →
      a.value = Value.number (n : Rat) →
        (n < 90 → ∃ r, AZUDatabaseAuditingRetention90Days set b = set ++ [r] ∧
          r.Severity = severity.Error ∧ r.Range = Block.Range inspected) ∧
        (90 ≤ n → AZUDatabaseAuditingRetention90Days set b = set)) := by
  have hblock : (if !Block.IsResourceType (some b)
        "azurerm_mssql_database_extended_auditing_policy" then
        Block.GetBlock (some b) "extended_auditing_policy" else some b) = inspected := by
    rw [hinspected]
    by_cases h : b.typeLabel = "azurerm_mssql_database_extended_auditing_policy" <;>
      simp [Block.IsResourceType, Block.TypeLabel, h]
  have hnone : Block.GetAttribute inspected "retention_in_days" = none →
      AZUDatabaseAuditingRetention90Days set b = set := by
    intro h
    simp only [AZUDatabaseAuditingRetention90Days, hblock, h]
    simp [Attribute.LessThan, Attribute.Value]
  refine ⟨hnone, ?_, ?_⟩
  · intro h
    apply hnone
    rw [h]
    rfl
  · intro a n hattr hval
    constructor
    · intro hlt
      have hq : ((n : Int) : Rat) < 90 := by exact_mod_cast hlt
      exact ⟨((New.WithDescription ("Resource \x27" ++ Block.FullName inspected ++
          "\x27 specifies a retention period of less than 90 days.")).WithRange
            (Block.Range inspected)).WithSeverity severity.Error,
        by
          simp only [AZUDatabaseAuditingRetention90Days, hblock, hattr]
          simp [Attribute.LessThan, Attribute.Value, hval, hq, Set.Add],
        rfl, rfl⟩
    · intro hge
      have hq : ¬ ((n : Int) : Rat) < 90 := by
        have : (90 : Rat) ≤ ((n : Int) : Rat) := by exact_mod_cast hge
        exact not_lt.2 this
      simp only [AZUDatabaseAuditingRetention90Days, hblock, hattr]
      simp [Attribute.LessThan, Attribute.Value, hval, hq]

/-- Witness of C16 at the documented bad example of AZU019 (retention 6). -/
theorem AZUDatabaseAuditingRetention90Days_ninety_witness :
    (some sample.auditingBad =
      if sample.auditingBad.typeLabel = "azurerm_mssql_database_extended_auditing_policy" then
        some sample.auditingBad
      else Block.GetBlock sample.auditingBad "extended_auditing_policy") ∧
    ((6 : Int) < 90 → ∃ r, AZUDatabaseAuditingRetention90Days [] sample.auditingBad = [] ++ [r] ∧
      r.Severity = severity.Error ∧ r.Range = Block.Range (some sample.auditingBad)) :=
  ⟨rfl,
    ((AZUDatabaseAuditingRetention90Days_ninety [] sample.auditingBad (some sample.auditingBad)
      rfl).2.2 sample.retention6 6 rfl (by simp [sample.retention6])).1⟩

/-- C17: the AWS010 check adds exactly one result (severity Error, range of the
`ssl_policy` attribute) if `ssl_policy` is a string equal to one of the four
entries of `outdatedSSLPolicies`, and no result otherwise (attribute missing,
not a string, or any other string); it never adds more than one result. -/
theorem AWSOutdatedSSLPolicy_one_or_none (f : GoFmt) (set : result.Set) (b : Block) :
    outdatedSSLPolicies =
      ["ELBSecurityPolicy-2015-05", "ELBSecurityPolicy-TLS-1-0-2015-04",
        "ELBSecurityPolicy-2016-08", "ELBSecurityPolicy-TLS-1-1-2017-01"] ∧
    (∀ (a : Attribute) (s : String), Block.GetAttribute b "ssl_policy" = some a →
      a.value = Value.string s → s ∈ outdatedSSLPolicies →
        ∃ r, AWSOutdatedSSLPolicy f set b = set ++ [r] ∧ r.Severity = severity.Error ∧
          r.Range = a.range) ∧
    (Block.GetAttribute b "ssl_policy" = none → AWSOutdatedSSLPolicy f set b = set) ∧
    (∀ a : Attribute, Block.GetAttribute b "ssl_policy" = some a →
      (∀ s, a.value ≠ Value.string s) → AWSOutdatedSSLPolicy f set b = set) ∧
    (∀ (a : Attribute) (s : String), Block.GetAttribute b "ssl_policy" = some a →
      a.value = Value.string s → s ∉ outdatedSSLPolicies → AWSOutdatedSSLPolicy f set b = set) ∧
    (AWSOutdatedSSLPolicy f set b).length ≤ set.length + 1 := by
  have hstring : ∀ (a : Attribute) (s : String), Block.GetAttribute b "ssl_policy" = some a →
      a.value = Value.string s →
      AWSOutdatedSSLPolicy f set b = set ++ (outdatedSSLPolicies.filter (fun p => p == s)).map
        (fun _ => ( Result.WithAttributeAnnotation f
          ((New.WithDescription ("Resource \x27" ++ Block.FullName b ++
            "\x27 is using an outdated SSL policy.")).WithRange a.range)
          (some a)).WithSeverity severity.Error) := by
    intro a s hattr hval
    simp only [AWSOutdatedSSLPolicy, hattr, Attribute.Type, Attribute.Value, hval,
      Value.AsString, Option.isSome_some, Bool.true_and, beq_self_eq_true, if_true,
      Attribute.Range]
    rw [← Set.foldl_add_eq_filter_map]
    congr 1
  have hmember : ∀ s, s ∈ outdatedSSLPolicies →
      (outdatedSSLPolicies.filter (fun p => p == s)).length = 1 := by
    intro s hs
    simp only [outdatedSSLPolicies, List.mem_cons, List.mem_singleton, List.not_mem_nil,
      or_false] at hs
    rcases hs with h | h | h | h <;> subst h <;> decide
  have hother : ∀ s, s ∉ outdatedSSLPolicies →
      outdatedSSLPolicies.filter (fun p => p == s) = [] := by
    intro s hs
    rw [List.filter_eq_nil_iff]
    intro p hp hps
    exact hs (by simpa using (beq_iff_eq.1 hps) ▸ hp)
  have hlen : ∀ s, (outdatedSSLPolicies.filter (fun p => p == s)).length ≤ 1 := by
    intro s
    by_cases hs : s ∈ outdatedSSLPolicies
    · exact le_of_eq (hmember s hs)
    · simp [hother s hs]
  refine ⟨rfl, ?_, ?_, ?_, ?_, ?_⟩
  · intro a s hattr hval hs
    rw [hstring a s hattr hval]
    obtain ⟨p, hp⟩ := List.length_eq_one.1 (hmember s hs)
    rw [hp]
    refine ⟨_, rfl, ?_, ?_⟩
    · simp [Result.WithSeverity]
    · simp [Result.WithSeverity, Result.WithAttributeAnnotation, Result.WithRange]
      split <;> rfl
  · intro hnone
    simp [AWSOutdatedSSLPolicy, hnone]
  · intro a hattr hnot
    simp only [AWSOutdatedSSLPolicy, hattr, Attribute.Type, Attribute.Value]
    cases hv : a.value <;> simp
    exact absurd hv (hnot _)
  · intro a s hattr hval hs
    rw [hstring a s hattr hval, hother s hs]
    simp
  · cases hattr : Block.GetAttribute b "ssl_policy" with
    | none => simp [AWSOutdatedSSLPolicy, hattr]
    | some a =>
      cases hv : a.value with
      | string s =>
        rw [hstring a s hattr hv]
        simp only [List.length_append, List.length_map]
        exact Nat.add_le_add_left (hlen s) _
      | _ => simp [AWSOutdatedSSLPolicy, hattr, Attribute.Type, Attribute.Value, hv]

/-- Witness of C17 at the documented bad example of AWS010. -/
theorem AWSOutdatedSSLPolicy_one_or_none_witness :
    Block.GetAttribute sample.listenerOutdated "ssl_policy" = some sample.sslOutdated ∧
    sample.sslOutdated.value = Value.string "ELBSecurityPolicy-TLS-1-1-2017-01" ∧
    "ELBSecurityPolicy-TLS-1-1-2017-01" ∈ outdatedSSLPolicies ∧
    ∃ r, AWSOutdatedSSLPolicy sample.fmt [] sample.listenerOutdated = [] ++ [r] ∧
      r.Severity = severity.Error ∧ r.Range = sample.sslOutdated.range :=
  ⟨rfl, rfl, by decide,
    (AWSOutdatedSSLPolicy_one_or_none sample.fmt [] sample.listenerOutdated).2.1
      sample.sslOutdated "ELBSecurityPolicy-TLS-1-1-2017-01" rfl rfl (by decide)⟩

end rules

namespace result

open block

/-- The annotation leaves the range of a result as it is. -/
theorem WithAttributeAnnotation_Range (f : GoFmt) (r : Result) (attr : Option Attribute) :
    ( Result.WithAttributeAnnotation f r attr).Range = r.Range := by
  unfold Result.WithAttributeAnnotation
  split <;> rfl

end result

namespace rules

open block result

/-- The inner loop of GEN003 over the whitelist finds an entry exactly when the
pair of type label and attribute name is in the whitelist. -/
theorem whitelist_any_eq_contains (l : List (String × String)) (typeLabel name : String) :
    l.any (fun whitelisted => whitelisted.1 == typeLabel && whitelisted.2 == name) =
      l.contains (typeLabel, name) := by
  rw [Bool.eq_iff_iff]
  simp only [List.any_eq_true, Bool.and_eq_true, beq_iff_eq, List.contains, List.elem_iff]
  constructor
  · rintro ⟨⟨x, y⟩, hmem, h1, h2⟩
    simp only at h1 h2
    subst h1 h2
    exact hmem
  · intro h
    exact ⟨(typeLabel, name), h, rfl, rfl⟩

/-- The test of GEN003 on the value: a string type and a string that is not
empty. -/
theorem nonEmptyString_test (a : Attribute) :
    (Attribute.Type (some a) == CtyType.String &&
        (Attribute.Value (some a)).AsString != some "") =
      (match a.value with
       | .string s => s != ""
       | _ => false) := by
  simp only [Attribute.Type, Attribute.Value]
  cases a.value <;> simp [Value.AsString, bne]

/-- C18: the results added by the GEN003 check correspond one to one, in
attribute order, to the block's attributes that are not whitelisted for the
block's type label, have a name classified as sensitive, and have a string
value that is not empty; each such result has severity Warning and the range
of its attribute. A whitelisted pair such as (aws_instance, get_password_data)
or (google_secret_manager_secret, secret_id) never produces a result, nor does
an attribute whose value is the empty string or not a string. -/
theorem GenericSensitiveAttributes_findings (f : GoFmt) (IsSensitiveAttribute : String → Bool)
    (set : result.Set) (b : Block) :
    (∃ findings : List Result,
      GenericSensitiveAttributes f IsSensitiveAttribute set b = set ++ findings ∧
      findings.map Result.Range =
        ((Block.GetAttributes b).filter
          (GEN003Flags IsSensitiveAttribute (Block.TypeLabel b))).map (fun a => a.range) ∧
      ∀ r ∈ findings, r.Severity = severity.Warning) ∧
    (∀ a : Attribute, (Block.TypeLabel b, a.name) ∈ sensitiveWhitelist →
      GEN003Flags IsSensitiveAttribute (Block.TypeLabel b) a = false) ∧
    (∀ (v : Value) (rg : Range),
      GEN003Flags IsSensitiveAttribute "aws_instance" ⟨"get_password_data", v, rg⟩ = false ∧
      GEN003Flags IsSensitiveAttribute "google_secret_manager_secret" ⟨"secret_id", v, rg⟩ =
        false) ∧
    (∀ (typeLabel : String) (a : Attribute), a.value = Value.string "" →
      GEN003Flags IsSensitiveAttribute typeLabel a = false) ∧
    (∀ (typeLabel : String) (a : Attribute), (∀ s, a.value ≠ Value.string s) →
      GEN003Flags IsSensitiveAttribute typeLabel a = false) := by
  refine ⟨?_, ?_, ?_, ?_, ?_⟩
  · have hstep : (fun (set : result.Set) (attr : Attribute) =>
        if sensitiveWhitelist.any (fun whitelisted =>
            whitelisted.1 == Block.TypeLabel (some b) &&
              whitelisted.2 == Attribute.Name (some attr)) then
          set
        else if IsSensitiveAttribute (Attribute.Name (some attr)) then
          if Attribute.Type (some attr) == CtyType.String &&
              (Attribute.Value (some attr)).AsString != some "" then
            set.Add (( Result.WithAttributeAnnotation f
              ((New.WithDescription
                ("Block \x27" ++ Block.FullName (some b) ++
                  "\x27 includes a potentially sensitive attribute which is defined within the project.")).WithRange
                    (Attribute.Range (some attr)))
              (some attr)).WithSeverity severity.Warning)
          else
            set
        else
          set) =
        (fun (set : result.Set) (attr : Attribute) =>
          if GEN003Flags IsSensitiveAttribute (Block.TypeLabel (some b)) attr then
            Set.Add set (( Result.WithAttributeAnnotation f
              ((New.WithDescription
                ("Block \x27" ++ Block.FullName (some b) ++
                  "\x27 includes a potentially sensitive attribute which is defined within the project.")).WithRange
                    attr.range)
              (some attr)).WithSeverity severity.Warning)
          else set) := by
      funext set attr
      rw [whitelist_any_eq_contains, nonEmptyString_test]
      simp only [GEN003Flags, Attribute.Name, Attribute.Range]
      by_cases hw : (Block.TypeLabel (some b), attr.name) ∈ sensitiveWhitelist <;>
        by_cases hsens : IsSensitiveAttribute attr.name = true <;> simp [hw, hsens]
    have hrun : GenericSensitiveAttributes f IsSensitiveAttribute set b = set ++
        ((Block.GetAttributes b).filter
          (GEN003Flags IsSensitiveAttribute (Block.TypeLabel b))).map
          (fun attr => ( Result.WithAttributeAnnotation f
            ((New.WithDescription
              ("Block \x27" ++ Block.FullName (some b) ++
                "\x27 includes a potentially sensitive attribute which is defined within the project.")).WithRange
                  attr.range)
            (some attr)).WithSeverity severity.Warning) := by
      unfold GenericSensitiveAttributes
      simp only []
      rw [hstep]
      exact Set.foldl_add_eq_filter_map _ _ _ _
    refine ⟨_, hrun, ?_, ?_⟩
    · simp only [List.map_map]
      apply List.map_congr_left
      intro a _
      simp [Result.WithSeverity, WithAttributeAnnotation_Range, Result.WithRange]
    · intro r hr
      obtain ⟨a, _, rfl⟩ := List.mem_map.1 hr
      rfl
  · intro a h
    simp [GEN003Flags, h]
  · intro v rg
    constructor <;> simp [GEN003Flags, sensitiveWhitelist]
  · intro typeLabel a h
    simp [GEN003Flags, h]
  · intro typeLabel a h
    unfold GEN003Flags
    cases hv : a.value <;> simp
    exact absurd hv (h _)

end rules

namespace scanner

open block result

/-- Eligibility spelled out on the lists of the rule. -/
theorem isRuleRequiredForBlock_iff (r : rule.Rule) (b : Block) :
    isRuleRequiredForBlock r b = true ↔
      b.kind ∈ r.RequiredTypes ∧ (r.RequiredLabels = [] ∨ b.typeLabel ∈ r.RequiredLabels) := by
  simp [isRuleRequiredForBlock, List.isEmpty_iff]

/-- Ordering the registry by id keeps its rules. -/
theorem mem_rulesInOrder (registry : List rule.Rule) (r : rule.Rule) :
    r ∈ rulesInOrder registry ↔ r ∈ registry :=
  (List.perm_insertionSort _ registry).mem_iff

/-- C19: Scan dispatches a rule's check function to a block if and only if the
rule is registered, the block is scanned, the block's kind is one of the rule's
RequiredTypes, and the rule's RequiredLabels is empty or contains the block's
type label. So GEN002 is run on every locals block and on no other, and AWS004
exactly on resource blocks of type label aws_lb_listener or
aws_alb_listener. -/
theorem dispatch_iff_required (registry : List rule.Rule) (blocks : List Block)
    (r : rule.Rule) (b : Block) (f : GoFmt) (IsSensitiveAttribute : String → Bool) :
    ((r, b) ∈ dispatch registry blocks ↔
      r ∈ registry ∧ b ∈ blocks ∧ b.kind ∈ r.RequiredTypes ∧
        (r.RequiredLabels = [] ∨ b.typeLabel ∈ r.RequiredLabels)) ∧
    (isRuleRequiredForBlock (rules.GenericSensitiveLocalsRule f IsSensitiveAttribute) b = true ↔
      b.kind = "locals") ∧
    (isRuleRequiredForBlock (rules.AWSPlainHTTPRule f) b = true ↔
      b.kind = "resource" ∧
        (b.typeLabel = "aws_lb_listener" ∨ b.typeLabel = "aws_alb_listener")) := by
  refine ⟨?_, ?_, ?_⟩
  · induction blocks with
    | nil => simp [dispatch]
    | cons b' blocks ih =>
      simp only [dispatch, List.mem_append, List.mem_map, List.mem_filter, ih,
        mem_rulesInOrder, isRuleRequiredForBlock_iff, List.mem_cons, Prod.mk.injEq]
      constructor
      · rintro (⟨r', ⟨hreg, hkind, hlabels⟩, rfl, rfl⟩ | ⟨hreg, hmem, hrest⟩)
        · exact ⟨hreg, Or.inl rfl, hkind, hlabels⟩
        · exact ⟨hreg, Or.inr hmem, hrest⟩
      · rintro ⟨hreg, rfl | hmem, hkind, hlabels⟩
        · exact Or.inl ⟨r, ⟨hreg, hkind, hlabels⟩, rfl, rfl⟩
        · exact Or.inr ⟨hreg, hmem, hkind, hlabels⟩
  · simp [isRuleRequiredForBlock_iff, rules.GenericSensitiveLocalsRule]
  · simp [isRuleRequiredForBlock_iff, rules.AWSPlainHTTPRule]

/-- A result that the post-scan policy lets through keeps its rule id, and if
that id is excluded then excluded results are shown and it is marked
Ignored. -/
theorem applyPolicy_some (opts : Options) (res out : Result)
    (h : applyPolicy opts res = some out) :
    out.RuleID = res.RuleID ∧
      (res.RuleID ∈ opts.excludedRuleIDs → opts.includeIgnored = true ∧ out.Status = Ignored) := by
  unfold applyPolicy at h
  simp only at h
  generalize hres : (match opts.severityOverrides.lookup res.RuleID with
    | some sev => res.WithSeverity sev
    | none => res) = res' at h
  have hid : res'.RuleID = res.RuleID := by
    rw [← hres]
    split <;> rfl
  split_ifs at h with c1 c2
  · cases h
    exact ⟨hid, fun _ => ⟨c2, rfl⟩⟩
  · cases h
    refine ⟨hid, fun hex => absurd ?_ c1⟩
    rw [hid]
    simpa [List.contains, List.elem_iff] using hex

/-- C20: for every block sequence and every exclusion list, no result whose
RuleID is excluded appears in the list returned by Scan, unless excluded
results are shown, in which case every such result has status Ignored. -/
theorem Scan_excluded_hidden_or_ignored (opts : Options) (registry : List rule.Rule)
    (blocks : List Block) (res : Result) (hmem : res ∈ Scan opts registry blocks)
    (hexcluded : res.RuleID ∈ opts.excludedRuleIDs) :
    opts.includeIgnored = true ∧ res.Status = Ignored := by
  obtain ⟨x, _, hx⟩ := List.mem_filterMap.1 hmem
  obtain ⟨hid, hpolicy⟩ := applyPolicy_some opts x res hx
  exact hpolicy (hid ▸ hexcluded)

end scanner

namespace scanner

open block result

/-- Witness of C20: the scan of the bad example of AWS004 with AWS004 excluded
and excluded results shown. -/
theorem Scan_excluded_hidden_or_ignored_witness :
    ∃ res, res ∈ Scan sample.showExcluded sample.registryAWS004 [sample.albBad] ∧
      res.RuleID ∈ sample.showExcluded.excludedRuleIDs ∧
      sample.showExcluded.includeIgnored = true ∧ res.Status = Ignored := by
  have hids : (Scan sample.showExcluded sample.registryAWS004 [sample.albBad]).map Result.RuleID =
      ["AWS004"] := by rfl
  have hne : Scan sample.showExcluded sample.registryAWS004 [sample.albBad] ≠ [] := by
    intro h
    rw [h] at hids
    simp at hids
  obtain ⟨res, hmem⟩ := List.exists_mem_of_ne_nil _ hne
  have hexcluded : res.RuleID ∈ sample.showExcluded.excludedRuleIDs := by
    have := List.mem_map_of_mem Result.RuleID hmem
    rw [hids] at this
    exact this
  exact ⟨res, hmem, hexcluded,
    Scan_excluded_hidden_or_ignored sample.showExcluded sample.registryAWS004 [sample.albBad] res
      hmem hexcluded⟩

end scanner

namespace scanner

open block result

/-- A dispatch pairs a registered rule with a scanned block. -/
theorem dispatch_subset (registry : List rule.Rule) (blocks : List Block) (r : rule.Rule)
    (b : Block) (h : (r, b) ∈ dispatch registry blocks) : r ∈ registry ∧ b ∈ blocks := by
  induction blocks with
  | nil => simp [dispatch] at h
  | cons b' blocks ih =>
    simp only [dispatch, List.mem_append, List.mem_map, List.mem_filter, Prod.mk.injEq] at h
    rcases h with ⟨r', ⟨hreg, _⟩, rfl, rfl⟩ | h
    · exact ⟨(mem_rulesInOrder registry r').1 hreg, List.mem_cons_self _ _⟩
    · exact ⟨(ih h).1, List.mem_cons_of_mem _ (ih h).2⟩

/-- Completing a result from a rule sets the rule id and keeps description,
severity, range and status. -/
theorem complete_fields (r : rule.Rule) (res : Result) :
    (complete r res).RuleID = r.ID ∧ (complete r res).Description = res.Description ∧
    (complete r res).Severity = res.Severity ∧ (complete r res).Range = res.Range ∧
    (complete r res).Status = res.Status :=
  ⟨rfl, rfl, rfl, rfl, rfl⟩

/-- Every result of one dispatch carries the id of the dispatched rule. -/
theorem runRule_RuleID (opts : Options) (r : rule.Rule) (b : Block) (res : Result)
    (h : res ∈ runRule opts r b) : res.RuleID = r.ID := by
  unfold runRule at h
  split at h
  · simp at h
  · split_ifs at h
    · rw [List.mem_singleton.1 h]
      rfl
    · obtain ⟨x, _, rfl⟩ := List.mem_map.1 h
      rfl

/-- A collected result comes from one of the dispatches. -/
theorem mem_collect (opts : Options) (l : List (rule.Rule × Block)) (res : Result)
    (h : res ∈ collect opts l) : ∃ r b, (r, b) ∈ l ∧ res ∈ runRule opts r b := by
  induction l with
  | nil => simp [collect] at h
  | cons p l ih =>
    obtain ⟨r, b⟩ := p
    simp only [collect, List.mem_append] at h
    rcases h with h | h
    · exact ⟨r, b, List.mem_cons_self _ _, h⟩
    · obtain ⟨r', b', hmem, hres⟩ := ih h
      exact ⟨r', b', List.mem_cons_of_mem _ hmem, hres⟩

/-- The scan of one block with one registered rule. -/
theorem Scan_single (opts : Options) (r : rule.Rule) (b : Block) :
    Scan opts [r] [b] =
      if isRuleRequiredForBlock r b then (runRule opts r b).filterMap (applyPolicy opts)
      else [] := by
  by_cases hreq : isRuleRequiredForBlock r b = true <;>
    simp [Scan, dispatch, rulesInOrder, collect, hreq]

/-- C21: every result returned by Scan has a RuleID equal to the ID of the
rule whose check function added it (so a non-empty one when the registered
ids are non-empty), although check functions build their results with
`result.New()` and leave the RuleID empty. For the example rule EXA001: scanning
a `resource "problem"` block with an attribute `bad` returns a result with
RuleID "EXA001", description "example problem", severity Error and the block's
range; scanning such a block without `bad` returns no result with that
RuleID. -/
theorem Scan_results_carry_rule_id (opts : Options) (registry : List rule.Rule)
    (blocks : List Block) (res : Result) (hmem : res ∈ Scan opts registry blocks) :
    (∃ r b, r ∈ registry ∧ b ∈ blocks ∧ (r, b) ∈ dispatch registry blocks ∧
      res.RuleID = r.ID) ∧
    ((∀ r ∈ registry, r.ID ≠ "") → res.RuleID ≠ "") ∧
    (∀ (b : Block) (added : result.Set), test.exampleRule.CheckFunc [] b = some added →
      ∀ x ∈ added, x.RuleID = "") ∧
    (∀ b : Block, b.kind = "resource" → b.typeLabel = "problem" →
      (Block.GetAttribute b "bad").isSome = true →
        ∃ x, Scan sample.plainOptions [test.exampleRule] [b] = [x] ∧ x.RuleID = "EXA001" ∧
          x.Description = "example problem" ∧ x.Severity = severity.Error ∧
          x.Range = Block.Range b) ∧
    (∀ b : Block, Block.GetAttribute b "bad" = none →
      ∀ x ∈ Scan sample.plainOptions [test.exampleRule] [b], x.RuleID ≠ "EXA001") := by
  have hrule : ∃ r b, r ∈ registry ∧ b ∈ blocks ∧ (r, b) ∈ dispatch registry blocks ∧
      res.RuleID = r.ID := by
    obtain ⟨x, hx, hpolicy⟩ := List.mem_filterMap.1 hmem
    obtain ⟨r, b, hdispatch, hrun⟩ := mem_collect opts _ x hx
    obtain ⟨hreg, hblock⟩ := dispatch_subset registry blocks r b hdispatch
    exact ⟨r, b, hreg, hblock, hdispatch,
      ((applyPolicy_some opts x res hpolicy).1).trans (runRule_RuleID opts r b x hrun)⟩
  refine ⟨hrule, ?_, ?_, ?_, ?_⟩
  · intro hids
    obtain ⟨r, _, hreg, _, _, hid⟩ := hrule
    rw [hid]
    exact hids r hreg
  · intro b added hadded x hx
    simp only [test.exampleRule, Option.some.injEq] at hadded
    subst hadded
    split_ifs at hx
    · simp only [Set.Add, List.nil_append, List.mem_singleton] at hx
      rw [hx]
      rfl
    · simp at hx
  · intro b hkind hlabel hbad
    have hreq : isRuleRequiredForBlock test.exampleRule b = true := by
      simp [isRuleRequiredForBlock, test.exampleRule, hkind, hlabel]
    have hrun : runRule sample.plainOptions test.exampleRule b =
        [complete test.exampleRule (((New.WithDescription "example problem").WithRange
          (Block.Range b)).WithSeverity severity.Error)] := by
      simp [runRule, test.exampleRule, hbad, sample.plainOptions, Set.Add]
    refine ⟨complete test.exampleRule (((New.WithDescription "example problem").WithRange
      (Block.Range b)).WithSeverity severity.Error), ?_, rfl, rfl, rfl, rfl⟩
    rw [Scan_single, hrun]
    simp [hreq, applyPolicy, sample.plainOptions]
  · intro b hbad x hx
    have hrun : runRule sample.plainOptions test.exampleRule b = [] := by
      simp [runRule, test.exampleRule, hbad, sample.plainOptions]
    rw [Scan_single, hrun] at hx
    split_ifs at hx <;> simp at hx

/-- Witness of C21: the scan of the block of setup_test.go with `bad` set. -/
theorem Scan_results_carry_rule_id_witness :
    ∃ res, res ∈ Scan sample.plainOptions [test.exampleRule] [sample.problemBad] ∧
      (∃ r b, r ∈ [test.exampleRule] ∧ b ∈ [sample.problemBad] ∧
        (r, b) ∈ dispatch [test.exampleRule] [sample.problemBad] ∧ res.RuleID = r.ID) ∧
      res.RuleID = "EXA001" := by
  have hids : (Scan sample.plainOptions [test.exampleRule] [sample.problemBad]).map
      Result.RuleID = ["EXA001"] := by rfl
  have hne : Scan sample.plainOptions [test.exampleRule] [sample.problemBad] ≠ [] := by
    intro h
    rw [h] at hids
    simp at hids
  obtain ⟨res, hmem⟩ := List.exists_mem_of_ne_nil _ hne
  have hid : res.RuleID = "EXA001" := by
    have := List.mem_map_of_mem Result.RuleID hmem
    rw [hids] at this
    exact List.mem_singleton.1 this
  exact ⟨res, hmem,
    (Scan_results_carry_rule_id sample.plainOptions [test.exampleRule] [sample.problemBad] res
      hmem).1, hid⟩

end scanner

namespace rules

open block result

/-- C22 (the code departs from the claim): on an SQS queue policy without a
`policy` attribute, and on one whose `policy` is unknown, the AWS047 check
faults instead of completing: the test of the type has an empty body, and
`AsString()` is called on a value that is not a string. -/
theorem AWSSqsPolicyWildcardActions_faults_without_string :
    Block.GetAttribute sample.sqsNoPolicy "policy" = none ∧
    AWSSqsPolicyWildcardActions sample.strs sample.unmarshal [] sample.sqsNoPolicy = none ∧
    Attribute.Value (Block.GetAttribute sample.sqsUnknownPolicy "policy") = Value.unknown ∧
    AWSSqsPolicyWildcardActions sample.strs sample.unmarshal [] sample.sqsUnknownPolicy =
      none := by
  refine ⟨rfl, ?_, rfl, ?_⟩ <;> rfl

/-- C23 (the code departs from the claim): on an Elasticsearch domain without a
`domain_endpoint_options` block the AWS033 check adds three results, and on one
whose `domain_endpoint_options` block has no `enforce_https` it adds two: none
of the three tests returns after adding its finding. -/
theorem AWSUnenforcedHTTPSElasticsearchDomainEndpoint_adds_three :
    Block.GetBlock sample.elasticsearchBare "domain_endpoint_options" = none ∧
    (AWSUnenforcedHTTPSElasticsearchDomainEndpoint [] sample.elasticsearchBare).length = 3 ∧
    (AWSUnenforcedHTTPSElasticsearchDomainEndpoint [] sample.elasticsearchNoAttr).length =
      2 := by
  refine ⟨rfl, ?_, ?_⟩ <;> rfl

end rules

namespace block

/-- `Equals` with a string, case-sensitively, holds exactly of a present
attribute whose value is that string. -/
theorem Attribute.Equals_string_iff (strs : GoStrings) (a : Option Attribute) (t : String) :
    Attribute.Equals strs a (Value.string t) false = true ↔
      ∃ x, a = some x ∧ x.value = Value.string t := by
  cases a with
  | none => simp [Attribute.Equals, Attribute.Value]
  | some x =>
    simp only [Attribute.Equals, Attribute.Value]
    cases hv : x.value <;> simp [hv]

/-- `IsFalse` holds exactly of a present attribute whose value is the boolean
false. -/
theorem Attribute.IsFalse_iff (a : Option Attribute) :
    Attribute.IsFalse a = true ↔ ∃ x, a = some x ∧ x.value = Value.bool false := by
  cases a with
  | none => simp [Attribute.IsFalse, Attribute.Value]
  | some x =>
    simp only [Attribute.IsFalse, Attribute.Value]
    cases hv : x.value <;> simp [hv]

/-- `IsTrue` holds exactly of a present attribute whose value is the boolean
true. -/
theorem Attribute.IsTrue_iff (a : Option Attribute) :
    Attribute.IsTrue a = true ↔ ∃ x, a = some x ∧ x.value = Value.bool true := by
  cases a with
  | none => simp [Attribute.IsTrue, Attribute.Value]
  | some x =>
    simp only [Attribute.IsTrue, Attribute.Value]
    cases hv : x.value <;> simp [hv]

end block

namespace result

/-- A set with one result added is not the set. -/
theorem Set.append_singleton_ne (set : result.Set) (r : Result) : set ++ [r] ≠ set := by
  intro h
  have := congrArg List.length h
  simp at this

end result

namespace rules

open block result

/-- C24: for every block the AWS051 check adds at most one result, and it adds
one if and only if `storage_encrypted` is missing or false, or `kms_key_id`
equals the empty string; so a block with `storage_encrypted = true` and either
no `kms_key_id` or a non-empty one yields no result. Whenever the result is not
the first branch's (which takes the block's range), the `kms_key_id` attribute
whose range it takes is present. -/
theorem AWSRDSAuroraClusterEncryptionDisabled_one_iff (f : GoFmt) (strs : GoStrings)
    (set : result.Set) (b : Block) :
    (AWSRDSAuroraClusterEncryptionDisabled f strs set b).length ≤ set.length + 1 ∧
    ((∃ r, AWSRDSAuroraClusterEncryptionDisabled f strs set b = set ++ [r]) ↔
      ((Block.GetAttribute b "storage_encrypted" = none ∨
          ∃ se, Block.GetAttribute b "storage_encrypted" = some se ∧
            se.value = Value.bool false) ∨
        ∃ kms, Block.GetAttribute b "kms_key_id" = some kms ∧ kms.value = Value.string "")) ∧
    (AWSRDSAuroraClusterEncryptionDisabled f strs set b = set ↔
      ¬ ((Block.GetAttribute b "storage_encrypted" = none ∨
          ∃ se, Block.GetAttribute b "storage_encrypted" = some se ∧
            se.value = Value.bool false) ∨
        ∃ kms, Block.GetAttribute b "kms_key_id" = some kms ∧ kms.value = Value.string "")) ∧
    (∀ se, Block.GetAttribute b "storage_encrypted" = some se → se.value = Value.bool true →
      (Block.GetAttribute b "kms_key_id" = none ∨
        ∃ kms s, Block.GetAttribute b "kms_key_id" = some kms ∧ kms.value = Value.string s ∧
          s ≠ "") →
      AWSRDSAuroraClusterEncryptionDisabled f strs set b = set) ∧
    (∀ r, AWSRDSAuroraClusterEncryptionDisabled f strs set b = set ++ [r] →
      (((Block.GetAttribute b "kms_key_id").isNone ||
          Attribute.IsEmpty (Block.GetAttribute b "kms_key_id")) &&
        ((Block.GetAttribute b "storage_encrypted").isNone ||
          Attribute.IsFalse (Block.GetAttribute b "storage_encrypted"))) = true →
      r.Range = Block.Range b) ∧
    (∀ r, AWSRDSAuroraClusterEncryptionDisabled f strs set b = set ++ [r] →
      (((Block.GetAttribute b "kms_key_id").isNone ||
          Attribute.IsEmpty (Block.GetAttribute b "kms_key_id")) &&
        ((Block.GetAttribute b "storage_encrypted").isNone ||
          Attribute.IsFalse (Block.GetAttribute b "storage_encrypted"))) = false →
      ∃ kms, Block.GetAttribute b "kms_key_id" = some kms ∧ r.Range = kms.range) := by
  generalize hkms : Block.GetAttribute (some b) "kms_key_id" = kmsAttr
  generalize hse : Block.GetAttribute (some b) "storage_encrypted" = seAttr
  have hS : (seAttr.isNone || Attribute.IsFalse seAttr) = true ↔
      (seAttr = none ∨ ∃ se, seAttr = some se ∧ se.value = Value.bool false) := by
    rw [Bool.or_eq_true, Attribute.IsFalse_iff, Option.isNone_iff_eq_none]
  have hE := Attribute.Equals_string_iff strs kmsAttr ""
  have hrun : AWSRDSAuroraClusterEncryptionDisabled f strs set b =
      if ((kmsAttr.isNone || Attribute.IsEmpty kmsAttr) &&
          (seAttr.isNone || Attribute.IsFalse seAttr)) = true then
        set ++ [((New.WithDescription ("Resource \x27" ++ Block.FullName b ++
          "\x27 defines a disabled RDS Cluster encryption.")).WithRange
            (Block.Range b)).WithSeverity severity.Error]
      else if Attribute.Equals strs kmsAttr (Value.string "") false = true then
        set ++ [( Result.WithAttributeAnnotation f
          ((New.WithDescription ("Resource \x27" ++ Block.FullName b ++
            "\x27 defines a disabled RDS Cluster encryption.")).WithRange
              (Attribute.Range kmsAttr)) kmsAttr).WithSeverity severity.Error]
      else if (seAttr.isNone || Attribute.IsFalse seAttr) = true then
        set ++ [( Result.WithAttributeAnnotation f
          ((New.WithDescription ("Resource \x27" ++ Block.FullName b ++
            "\x27 defines a enabled RDS Cluster encryption but not the required encrypted_storage.")).WithRange
              (Attribute.Range kmsAttr)) kmsAttr).WithSeverity severity.Error]
      else set := by
    simp only [AWSRDSAuroraClusterEncryptionDisabled, hkms, hse, Set.Add]
  have hpresent : ((kmsAttr.isNone || Attribute.IsEmpty kmsAttr) &&
      (seAttr.isNone || Attribute.IsFalse seAttr)) = false →
      (Attribute.Equals strs kmsAttr (Value.string "") false = true ∨
        (seAttr.isNone || Attribute.IsFalse seAttr) = true) →
      ∃ kms, kmsAttr = some kms := by
    intro hfirst hlater
    cases kmsAttr with
    | some kms => exact ⟨kms, rfl⟩
    | none =>
      rcases hlater with h | h
      · simp [Attribute.Equals, Attribute.Value] at h
      · simp [h] at hfirst
  rw [hrun]
  refine ⟨?_, ?_, ?_, ?_, ?_, ?_⟩
  · split_ifs <;> simp
  · rw [← hS, ← hE]
    split_ifs with c1 c2 c3
    · simp only [Bool.and_eq_true] at c1
      exact ⟨fun _ => Or.inl c1.2, fun _ => ⟨_, rfl⟩⟩
    · exact ⟨fun _ => Or.inr c2, fun _ => ⟨_, rfl⟩⟩
    · exact ⟨fun _ => Or.inl c3, fun _ => ⟨_, rfl⟩⟩
    · constructor
      · rintro ⟨r, hr⟩
        exact absurd hr.symm (Set.append_singleton_ne set r)
      · rintro (h | h)
        · exact absurd h c3
        · exact absurd h c2
  · rw [← hS, ← hE]
    split_ifs with c1 c2 c3
    · simp only [Bool.and_eq_true] at c1
      exact ⟨fun h => absurd h (Set.append_singleton_ne set _), fun h => absurd (Or.inl c1.2) h⟩
    · exact ⟨fun h => absurd h (Set.append_singleton_ne set _), fun h => absurd (Or.inr c2) h⟩
    · exact ⟨fun h => absurd h (Set.append_singleton_ne set _), fun h => absurd (Or.inl c3) h⟩
    · exact ⟨fun _ => by rintro (h | h) <;> contradiction, fun _ => rfl⟩
  · intro se hseq hsev hk
    have hnS : ¬ (seAttr.isNone || Attribute.IsFalse seAttr) = true := by
      rw [hseq]
      simp [Attribute.IsFalse, Attribute.Value, hsev]
    have hnE : ¬ Attribute.Equals strs kmsAttr (Value.string "") false = true := by
      rw [hE]
      rintro ⟨x, hx, hv⟩
      rcases hk with h | ⟨kms, s, h, hv', hs⟩
      · rw [h] at hx
        cases hx
      · rw [h] at hx
        cases hx
        rw [hv'] at hv
        cases hv
        exact hs rfl
    have hn1 : ¬ ((kmsAttr.isNone || Attribute.IsEmpty kmsAttr) &&
        (seAttr.isNone || Attribute.IsFalse seAttr)) = true := by
      simp only [Bool.and_eq_true, not_and]
      exact fun _ => hnS
    rw [if_neg hn1, if_neg hnE, if_neg hnS]
  · intro r hr hfirst
    rw [if_pos hfirst] at hr
    have := List.append_cancel_left hr
    simp only [List.cons.injEq, and_true] at this
    rw [← this]
    rfl
  · intro r hr hfirst
    have hn1 : ¬ ((kmsAttr.isNone || Attribute.IsEmpty kmsAttr) &&
        (seAttr.isNone || Attribute.IsFalse seAttr)) = true := by
      rw [hfirst]
      simp
    rw [if_neg hn1] at hr
    split_ifs at hr with c2 c3
    · obtain ⟨kms, hk⟩ := hpresent hfirst (Or.inl c2)
      refine ⟨kms, hk, ?_⟩
      have := List.append_cancel_left hr
      simp only [List.cons.injEq, and_true] at this
      rw [← this, hk]
      simp [Result.WithSeverity, WithAttributeAnnotation_Range, Result.WithRange,
        Attribute.Range]
    · obtain ⟨kms, hk⟩ := hpresent hfirst (Or.inr c3)
      refine ⟨kms, hk, ?_⟩
      have := List.append_cancel_left hr
      simp only [List.cons.injEq, and_true] at this
      rw [← this, hk]
      simp [Result.WithSeverity, WithAttributeAnnotation_Range, Result.WithRange,
        Attribute.Range]
    · exact absurd hr.symm (Set.append_singleton_ne set r)

end rules

namespace rules

open block result

/-- The second test of AWS024 holds exactly of a string that differs from
"KMS" when upper-cased. -/
theorem kinesis_type_test (strs : GoStrings) (a : Attribute) :
    (Attribute.Type (some a) == CtyType.String &&
        (Attribute.Value (some a)).AsString.map strs.ToUpper != some "KMS") = true ↔
      ∃ s, a.value = Value.string s ∧ strs.ToUpper s ≠ "KMS" := by
  simp only [Attribute.Type, Attribute.Value]
  cases hv : a.value <;> simp [Value.AsString, bne]

/-- C25: the AWS024 check adds at most one result: an Error with the block's
range if `encryption_type` is missing; an Error with the attribute's range if
`encryption_type` is a string that differs from "KMS" when upper-cased;
otherwise a Warning with the block's range if and only if `kms_key_id` is
missing, empty, or equal to "alias/aws/kinesis". It adds no result exactly when
`encryption_type` is present and not a string different from KMS, and
`kms_key_id` is present, non-empty and not "alias/aws/kinesis". -/
theorem AWSUnencryptedKinesisStream_cases (f : GoFmt) (strs : GoStrings) (set : result.Set)
    (b : Block) :
    (AWSUnencryptedKinesisStream f strs set b).length ≤ set.length + 1 ∧
    (Block.GetAttribute b "encryption_type" = none →
      ∃ r, AWSUnencryptedKinesisStream f strs set b = set ++ [r] ∧
        r.Severity = severity.Error ∧ r.Range = Block.Range b) ∧
    (∀ a s, Block.GetAttribute b "encryption_type" = some a → a.value = Value.string s →
      strs.ToUpper s ≠ "KMS" →
      ∃ r, AWSUnencryptedKinesisStream f strs set b = set ++ [r] ∧
        r.Severity = severity.Error ∧ r.Range = a.range) ∧
    (∀ a, Block.GetAttribute b "encryption_type" = some a →
      (∀ s, a.value = Value.string s → strs.ToUpper s = "KMS") →
      ((Block.GetAttribute b "kms_key_id" = none ∨
          Attribute.IsEmpty (Block.GetAttribute b "kms_key_id") = true ∨
          ∃ k, Block.GetAttribute b "kms_key_id" = some k ∧
            k.value = Value.string "alias/aws/kinesis") →
        ∃ r, AWSUnencryptedKinesisStream f strs set b = set ++ [r] ∧
          r.Severity = severity.Warning ∧ r.Range = Block.Range b) ∧
      (¬ (Block.GetAttribute b "kms_key_id" = none ∨
          Attribute.IsEmpty (Block.GetAttribute b "kms_key_id") = true ∨
          ∃ k, Block.GetAttribute b "kms_key_id" = some k ∧
            k.value = Value.string "alias/aws/kinesis") →
        AWSUnencryptedKinesisStream f strs set b = set)) ∧
    (AWSUnencryptedKinesisStream f strs set b = set ↔
      (∃ a, Block.GetAttribute b "encryption_type" = some a ∧
        ∀ s, a.value = Value.string s → strs.ToUpper s = "KMS") ∧
      ¬ (Block.GetAttribute b "kms_key_id" = none ∨
          Attribute.IsEmpty (Block.GetAttribute b "kms_key_id") = true ∨
          ∃ k, Block.GetAttribute b "kms_key_id" = some k ∧
            k.value = Value.string "alias/aws/kinesis")) := by
  generalize hkey : Block.GetAttribute (some b) "kms_key_id" = keyAttr
  have hK : (keyAttr.isNone || Attribute.IsEmpty keyAttr ||
      Attribute.Equals strs keyAttr (Value.string "alias/aws/kinesis") false) = true ↔
      (keyAttr = none ∨ Attribute.IsEmpty keyAttr = true ∨
        ∃ k, keyAttr = some k ∧ k.value = Value.string "alias/aws/kinesis") := by
    rw [Bool.or_eq_true, Bool.or_eq_true, Attribute.Equals_string_iff,
      Option.isNone_iff_eq_none, or_assoc]
  have hmissing : Block.GetAttribute (some b) "encryption_type" = none →
      AWSUnencryptedKinesisStream f strs set b = set ++
        [((New.WithDescription ("Resource \x27" ++ Block.FullName b ++
          "\x27 defines an unencrypted Kinesis Stream.")).WithRange
            (Block.Range b)).WithSeverity severity.Error] := by
    intro h
    simp [AWSUnencryptedKinesisStream, h, Set.Add]
  have hdiffers : ∀ a, Block.GetAttribute (some b) "encryption_type" = some a →
      (∃ s, a.value = Value.string s ∧ strs.ToUpper s ≠ "KMS") →
      AWSUnencryptedKinesisStream f strs set b = set ++
        [( Result.WithAttributeAnnotation f
          ((New.WithDescription ("Resource \x27" ++ Block.FullName b ++
            "\x27 defines an unencrypted Kinesis Stream.")).WithRange a.range)
          (some a)).WithSeverity severity.Error] := by
    intro a h hs
    have htest := (kinesis_type_test strs a).2 hs
    simp only [AWSUnencryptedKinesisStream, h, Option.isNone_some, htest, Set.Add,
      Attribute.Range]
    simp
  have hkms : ∀ a, Block.GetAttribute (some b) "encryption_type" = some a →
      ¬ (∃ s, a.value = Value.string s ∧ strs.ToUpper s ≠ "KMS") →
      AWSUnencryptedKinesisStream f strs set b =
        if (keyAttr.isNone || Attribute.IsEmpty keyAttr ||
            Attribute.Equals strs keyAttr (Value.string "alias/aws/kinesis") false) = true then
          set ++ [((New.WithDescription ("Resource \x27" ++ Block.FullName b ++
            "\x27 defines a Kinesis Stream encrypted with the default Kinesis key.")).WithRange
              (Block.Range b)).WithSeverity severity.Warning]
        else set := by
    intro a h hs
    have htest : ¬ (Attribute.Type (some a) == CtyType.String &&
        (Attribute.Value (some a)).AsString.map strs.ToUpper != some "KMS") = true :=
      fun hc => hs ((kinesis_type_test strs a).1 hc)
    simp only [AWSUnencryptedKinesisStream, h, Option.isNone_some, hkey, Set.Add]
    rw [if_neg (by simp), if_neg htest]
  have hnot : ∀ a : Attribute, (∀ s, a.value = Value.string s → strs.ToUpper s = "KMS") ↔
      ¬ (∃ s, a.value = Value.string s ∧ strs.ToUpper s ≠ "KMS") := by
    intro a
    constructor
    · rintro h ⟨s, hv, hne⟩
      exact hne (h s hv)
    · intro h s hv
      by_contra hne
      exact h ⟨s, hv, hne⟩
  refine ⟨?_, ?_, ?_, ?_, ?_⟩
  · cases henc : Block.GetAttribute (some b) "encryption_type" with
    | none => simp [hmissing henc]
    | some a =>
      by_cases hs : ∃ s, a.value = Value.string s ∧ strs.ToUpper s ≠ "KMS"
      · simp [hdiffers a henc hs]
      · rw [hkms a henc hs]
        split_ifs <;> simp
  · intro h
    exact ⟨_, hmissing h, rfl, rfl⟩
  · intro a s h hv hne
    refine ⟨_, hdiffers a h ⟨s, hv, hne⟩, rfl, ?_⟩
    simp [Result.WithSeverity, WithAttributeAnnotation_Range, Result.WithRange]
  · intro a h hs
    rw [hkms a h ((hnot a).1 hs), ← hK]
    constructor
    · intro hk
      rw [if_pos hk]
      exact ⟨_, rfl, rfl, rfl⟩
    · intro hk
      rw [if_neg hk]
  · rw [← hK]
    cases henc : Block.GetAttribute (some b) "encryption_type" with
    | none =>
      rw [hmissing henc]
      constructor
      · intro h
        exact absurd h (Set.append_singleton_ne set _)
      · rintro ⟨⟨a, ha, _⟩, _⟩
        cases ha
    | some a =>
      by_cases hs : ∃ s, a.value = Value.string s ∧ strs.ToUpper s ≠ "KMS"
      · rw [hdiffers a henc hs]
        constructor
        · intro h
          exact absurd h (Set.append_singleton_ne set _)
        · rintro ⟨⟨a', ha, hall⟩, _⟩
          cases ha
          exact absurd hs ((hnot a).1 hall)
      · rw [hkms a henc hs]
        split_ifs with hk
        · constructor
          · intro h
            exact absurd h (Set.append_singleton_ne set _)
          · rintro ⟨_, hnk⟩
            exact absurd hk hnk
        · exact ⟨fun _ => ⟨⟨a, rfl, (hnot a).2 hs⟩, hk⟩, fun _ => rfl⟩

end rules

namespace rules

open block result

/-- C26: for every block whose `policy` attribute is a string that parses into
the policy struct, the number of results the AWS047 check adds equals the
number of statements whose Effect equals "allow" ignoring case and whose
Action is exactly "*" or exactly "sqs:*"; every such result has severity Error
and the block's range. -/
theorem AWSSqsPolicyWildcardActions_counts_wildcards (strs : GoStrings)
    (Unmarshal : String → Option SqsPolicy) (set : result.Set) (b : Block) (a : Attribute)
    (raw : String) (policy : SqsPolicy)
    (hattr : Block.GetAttribute b "policy" = some a) (hval : a.value = Value.string raw)
    (hparse : Unmarshal raw = some policy) :
    ∃ findings : List Result,
      AWSSqsPolicyWildcardActions strs Unmarshal set b = some (set ++ findings) ∧
      findings.length = policy.Statement.countP (SqsStatement.isWildcardAllow strs) ∧
      ∀ r ∈ findings, r.Severity = severity.Error ∧ r.Range = Block.Range b := by
  refine ⟨(policy.Statement.filter (SqsStatement.isWildcardAllow strs)).map
    (fun _ => ((New.WithDescription ("SQS policy \x27" ++ Block.FullName b ++
      "\x27 has a wildcard action specified.")).WithRange
        (Block.Range b)).WithSeverity severity.Error), ?_, ?_, ?_⟩
  · rw [← Set.foldl_add_eq_filter_map]
    simp only [AWSSqsPolicyWildcardActions, hattr, Attribute.Value, hval, Value.AsString,
      hparse, Option.pure_def, Option.bind_eq_bind, Option.some_bind]
    rfl
  · rw [List.length_map, List.countP_eq_length_filter]
  · intro r hr
    obtain ⟨_, _, rfl⟩ := List.mem_map.1 hr
    exact ⟨rfl, rfl⟩

/-- Witness of C26 at the documented bad example (Effect "Allow", Action "*"):
exactly one result; the documented good example (Action "sqs:SendMessage")
yields none. -/
theorem AWSSqsPolicyWildcardActions_counts_wildcards_witness :
    Block.GetAttribute sample.sqsBad "policy" = some sample.sqsBadPolicy ∧
    sample.sqsBadPolicy.value = Value.string sample.sqsBadJSON ∧
    sample.unmarshal sample.sqsBadJSON = some ⟨[⟨"Allow", "*"⟩]⟩ ∧
    List.countP (SqsStatement.isWildcardAllow sample.strs) [⟨"Allow", "*"⟩] = 1 ∧
    List.countP (SqsStatement.isWildcardAllow sample.strs) [⟨"Allow", "sqs:SendMessage"⟩] = 0 ∧
    AWSSqsPolicyWildcardActions sample.strs sample.unmarshal [] sample.sqsGood = some [] ∧
    ∃ findings : List Result,
      AWSSqsPolicyWildcardActions sample.strs sample.unmarshal [] sample.sqsBad =
        some ([] ++ findings) ∧
      findings.length = List.countP (SqsStatement.isWildcardAllow sample.strs) [⟨"Allow", "*"⟩] ∧
      ∀ r ∈ findings, r.Severity = severity.Error ∧ r.Range = Block.Range sample.sqsBad :=
  ⟨rfl, rfl, rfl, by decide, by decide, rfl,
    AWSSqsPolicyWildcardActions_counts_wildcards sample.strs sample.unmarshal [] sample.sqsBad
      sample.sqsBadPolicy sample.sqsBadJSON ⟨[⟨"Allow", "*"⟩]⟩ rfl rfl rfl⟩

/-- The test of AWS080 on the `type` attribute, spelled out. -/
theorem Equals_NO_ARTIFACTS (strs : GoStrings) (artifactBlock : Block) :
    Attribute.Equals strs (Block.GetAttribute (some artifactBlock) "type")
      (Value.string "NO_ARTIFACTS") true = typeIsNoArtifacts strs artifactBlock := by
  unfold typeIsNoArtifacts
  cases h : Block.GetAttribute (some artifactBlock) "type" with
  | none => simp [Attribute.Equals, Attribute.Value]
  | some a =>
    simp only [Attribute.Equals, Attribute.Value]
    cases a.value <;> simp

/-- C27: the AWS080 check adds exactly one result for each artifact block (all
`secondary_artifacts` children in order, then the first `artifacts` child if
present) whose `encryption_disabled` attribute is true and none for the others,
in that order; the result has the artifact block's range, and severity Warning
if that block's `type` attribute equals "NO_ARTIFACTS" ignoring case and Error
otherwise (also when `type` is missing). -/
theorem AWSCodeBuildProjectEncryptionNotDisabled_findings (f : GoFmt) (strs : GoStrings)
    (set : result.Set) (b : Block) :
    (∃ findings : List Result,
      AWSCodeBuildProjectEncryptionNotDisabled f strs set b = set ++ findings ∧
      findings.map Result.Range =
        ((artifactBlocks b).filter (fun artifactBlock =>
          Attribute.IsTrue (Block.GetAttribute (some artifactBlock) "encryption_disabled"))).map
          (fun artifactBlock => Block.Range (some artifactBlock)) ∧
      findings.map Result.Severity =
        ((artifactBlocks b).filter (fun artifactBlock =>
          Attribute.IsTrue (Block.GetAttribute (some artifactBlock) "encryption_disabled"))).map
          (fun artifactBlock =>
            if typeIsNoArtifacts strs artifactBlock then severity.Warning
            else severity.Error)) ∧
    (∀ artifactBlock : Block, Block.GetAttribute (some artifactBlock) "type" = none →
      typeIsNoArtifacts strs artifactBlock = false) := by
  constructor
  · refine ⟨((artifactBlocks b).filter (fun artifactBlock =>
        Attribute.IsTrue (Block.GetAttribute (some artifactBlock) "encryption_disabled"))).map
        (fun artifactBlock =>
          if typeIsNoArtifacts strs artifactBlock then
            ( Result.WithAttributeAnnotation f
              ((New.WithDescription ("CodeBuild project \x27" ++ Block.FullName b ++
                "\x27 is configured to disable artifact encryption while no artifacts are produced")).WithRange
                  (Block.Range (some artifactBlock)))
              (Block.GetAttribute (some artifactBlock) "type")).WithSeverity severity.Warning
          else
            ( Result.WithAttributeAnnotation f
              ((New.WithDescription ("CodeBuild project \x27" ++ Block.FullName b ++
                "\x27 does not encrypt produced artifacts")).WithRange
                  (Block.Range (some artifactBlock)))
              (Block.GetAttribute (some artifactBlock) "encryption_disabled")).WithSeverity
                severity.Error), ?_, ?_, ?_⟩
    · rw [← Set.foldl_add_eq_filter_map]
      have hblocks : (match Block.GetBlock (some b) "artifacts" with
          | some artifact => Block.GetBlocks (some b) "secondary_artifacts" ++ [artifact]
          | none => Block.GetBlocks (some b) "secondary_artifacts") = artifactBlocks b := by
        unfold artifactBlocks
        cases Block.GetBlock (some b) "artifacts" <;> simp
      simp only [AWSCodeBuildProjectEncryptionNotDisabled, hblocks]
      congr 1
      funext set artifactBlock
      rw [Equals_NO_ARTIFACTS]
      have hcond : ((Block.GetAttribute (some artifactBlock) "encryption_disabled").isSome &&
          Attribute.IsTrue (Block.GetAttribute (some artifactBlock) "encryption_disabled")) =
          Attribute.IsTrue (Block.GetAttribute (some artifactBlock) "encryption_disabled") := by
        cases h : Block.GetAttribute (some artifactBlock) "encryption_disabled" <;>
          simp [Attribute.IsTrue, Attribute.Value]
      rw [hcond]
      split_ifs <;> rfl
    · simp only [List.map_map]
      apply List.map_congr_left
      intro artifactBlock _
      simp only [Function.comp]
      split_ifs <;>
        simp [Result.WithSeverity, WithAttributeAnnotation_Range, Result.WithRange]
    · simp only [List.map_map]
      apply List.map_congr_left
      intro artifactBlock _
      simp only [Function.comp]
      split_ifs <;> rfl
  · intro artifactBlock h
    simp [typeIsNoArtifacts, h]

end rules

namespace result

/-- Nothing added. -/
theorem Set.added_none (set : result.Set) :
    ∃ findings : List Result, set = set ++ findings ∧ findings.length = 0 :=
  ⟨[], by simp, rfl⟩

/-- One result added. -/
theorem Set.added_one (set : result.Set) (r : Result) :
    ∃ findings : List Result, set ++ [r] = set ++ findings ∧ findings.length = 1 :=
  ⟨[r], rfl, rfl⟩

/-- Two results added, one after the other. -/
theorem Set.added_two (set : result.Set) (r r' : Result) :
    ∃ findings : List Result, set ++ [r] ++ [r'] = set ++ findings ∧ findings.length = 2 :=
  ⟨[r, r'], by simp, rfl⟩

end result

namespace rules

open block result

/-- The AWS066 check adds as many results as its tests count. -/
theorem AWSEKSSecretsEncryptionEnabled_run (f : GoFmt) (set : result.Set) (b : Block) :
    ∃ findings : List Result, AWSEKSSecretsEncryptionEnabled f set b = set ++ findings ∧
      findings.length = eksFindingCount b := by
  unfold AWSEKSSecretsEncryptionEnabled eksFindingCount
  simp only [Set.Add]
  split_ifs <;>
    first
      | exact Set.added_none _
      | exact Set.added_one _ _
      | exact Set.added_two _ _ _

/-- No test of AWS066 fires exactly on a cluster that encrypts secrets with a
key. -/
theorem eksFindingCount_eq_zero_iff (b : Block) : eksFindingCount b = 0 ↔ EncryptsSecrets b := by
  unfold eksFindingCount EncryptsSecrets
  simp only []
  constructor
  · intro h
    by_cases c1 : Block.MissingChild (some b) "encryption_config" = true
    · simp [c1] at h
    by_cases c2 : Block.MissingChild (Block.GetBlock (some b) "encryption_config") "resources" =
        true
    · simp [c1, c2] at h
    rw [if_neg c1, if_neg c2] at h
    obtain ⟨h3, h4⟩ := Nat.add_eq_zero_iff.1 h
    by_cases c3 : (!Attribute.Contains (Block.GetAttribute (Block.GetBlock (some b)
        "encryption_config") "resources") "secrets") = true
    · simp [c3] at h3
    by_cases c4 : Block.MissingChild (Block.GetBlock (some b) "encryption_config") "provider" =
        true
    · simp [c4] at h4
    by_cases c5 : Block.MissingChild (Block.GetBlock (Block.GetBlock (some b)
        "encryption_config") "provider") "key_arn" = true
    · simp [c4, c5] at h4
    by_cases c6 : Attribute.IsEmpty (Block.GetAttribute (Block.GetBlock (Block.GetBlock
        (some b) "encryption_config") "provider") "key_arn") = true
    · simp [c4, c5, c6] at h4
    cases hconfig : Block.GetBlock (some b) "encryption_config" with
    | none => simp [hconfig, Block.MissingChild] at c2
    | some config =>
      rw [hconfig] at c3 c5 c6
      refine ⟨config, rfl, ?_, ?_⟩
      · cases hres : Block.GetAttribute (some config) "resources" with
        | none => simp [hres, Attribute.Contains, Attribute.Value] at c3
        | some resources => exact ⟨resources, rfl, by simpa [hres] using c3⟩
      · cases hprov : Block.GetBlock (some config) "provider" with
        | none => simp [hprov, Block.MissingChild] at c5
        | some providerBlock =>
          rw [hprov] at c6
          refine ⟨providerBlock, rfl, ?_⟩
          cases hkey : Block.GetAttribute (some providerBlock) "key_arn" with
          | none => simp [hkey, Attribute.IsEmpty, Attribute.Value] at c6
          | some keyArn => exact ⟨keyArn, rfl, by simpa [hkey] using c6⟩
  · rintro ⟨config, hconfig, ⟨resources, hres, hcontains⟩, providerBlock, hprov, keyArn, hkey,
      hempty⟩
    simp [hconfig, hres, hcontains, hprov, hkey, hempty, Block.MissingChild, Block.HasChild]

/-- C28: the AWS066 check adds at most two results, and it adds none if and
only if the block has an `encryption_config` child with a `resources`
attribute that contains "secrets" and a `provider` child block whose `key_arn`
attribute is present and not empty. If `encryption_config` is missing, or
present without `resources`, exactly one result is added. -/
theorem AWSEKSSecretsEncryptionEnabled_at_most_two (f : GoFmt) (set : result.Set) (b : Block) :
    (AWSEKSSecretsEncryptionEnabled f set b).length ≤ set.length + 2 ∧
    (AWSEKSSecretsEncryptionEnabled f set b = set ↔ EncryptsSecrets b) ∧
    (Block.GetBlock b "encryption_config" = none →
      ∃ r, AWSEKSSecretsEncryptionEnabled f set b = set ++ [r]) ∧
    (∀ config, Block.GetBlock b "encryption_config" = some config →
      Block.MissingChild (some config) "resources" = true →
      ∃ r, AWSEKSSecretsEncryptionEnabled f set b = set ++ [r]) := by
  obtain ⟨findings, hrun, hlen⟩ := AWSEKSSecretsEncryptionEnabled_run f set b
  have hone : eksFindingCount b = 1 →
      ∃ r, AWSEKSSecretsEncryptionEnabled f set b = set ++ [r] := by
    intro h
    rw [h] at hlen
    obtain ⟨r, hr⟩ := List.length_eq_one.1 hlen
    exact ⟨r, by rw [hrun, hr]⟩
  refine ⟨?_, ?_, ?_, ?_⟩
  · rw [hrun, List.length_append, hlen]
    apply Nat.add_le_add_left
    unfold eksFindingCount
    simp only []
    split_ifs <;> simp
  · rw [← eksFindingCount_eq_zero_iff, ← hlen, hrun, List.length_eq_zero]
    exact List.append_right_eq_self
  · intro hnone
    apply hone
    have hm : Block.MissingChild none "resources" = true := rfl
    unfold eksFindingCount
    simp only [hnone, hm, if_true]
    split_ifs <;> rfl
  · intro config hconfig hmissing
    apply hone
    unfold eksFindingCount
    simp only [hconfig, hmissing]
    split_ifs <;> rfl

end rules

namespace rules

open block result

/-- C29: on a block whose type label equals "aws_athena_workgroup" ignoring
case the inspected block is its `configuration`.`result_configuration`
grandchild, and if `configuration` or `result_configuration` is absent no
result is added; on any other block the inspected block is the block itself.
The check adds exactly one result (severity Error) if the inspected block has
no `encryption_configuration` child and none otherwise; the result's range is
the inspected block's range while its description names the full name of the
original block. -/
theorem AWSEnsureAthenaDbEncrypted_inspected (strs : GoStrings) (set : result.Set) (b : Block)
    (inspected : Option Block)
    (hinspected : inspected =
      if strs.EqualFold (Block.TypeLabel b) "aws_athena_workgroup" = true then
        Block.GetBlock (Block.GetBlock b "configuration") "result_configuration"
      else some b) :
    (strs.EqualFold (Block.TypeLabel b) "aws_athena_workgroup" = true →
      (Block.HasChild b "configuration" = false ∨
        Block.HasChild (Block.GetBlock b "configuration") "result_configuration" = false) →
      AWSEnsureAthenaDbEncrypted strs set b = set) ∧
    ((strs.EqualFold (Block.TypeLabel b) "aws_athena_workgroup" = false ∨
        (Block.HasChild b "configuration" = true ∧
          Block.HasChild (Block.GetBlock b "configuration") "result_configuration" = true)) →
      (Block.MissingChild inspected "encryption_configuration" = true →
        ∃ r, AWSEnsureAthenaDbEncrypted strs set b = set ++ [r] ∧
          r.Severity = severity.Error ∧ r.Range = Block.Range inspected ∧
          r.Description =
            "Resource \x27" ++ Block.FullName b ++
              "\x27 missing encryption configuration block.") ∧
      (Block.MissingChild inspected "encryption_configuration" = false →
        AWSEnsureAthenaDbEncrypted strs set b = set)) := by
  constructor
  · intro hwg habsent
    have hcond : ¬ (Block.HasChild (some b) "configuration" &&
        Block.HasChild (Block.GetBlock (some b) "configuration") "result_configuration") =
        true := by
      rcases habsent with h | h <;> simp [h]
    simp only [AWSEnsureAthenaDbEncrypted, hwg, if_true]
    rw [if_neg hcond]
  · intro hreached
    have hrun : AWSEnsureAthenaDbEncrypted strs set b =
        if Block.MissingChild inspected "encryption_configuration" = true then
          set ++ [((New.WithDescription ("Resource \x27" ++ Block.FullName b ++
            "\x27 missing encryption configuration block.")).WithRange
              (Block.Range inspected)).WithSeverity severity.Error]
        else set := by
      rw [hinspected]
      rcases hreached with hwg | ⟨h1, h2⟩
      · have hwg' : ¬ strs.EqualFold (Block.TypeLabel (some b)) "aws_athena_workgroup" = true := by
          simp [hwg]
        simp only [AWSEnsureAthenaDbEncrypted, Set.Add]
        rw [if_neg hwg', if_neg hwg']
      · by_cases hwg : strs.EqualFold (Block.TypeLabel (some b)) "aws_athena_workgroup" = true
        · simp only [AWSEnsureAthenaDbEncrypted, Set.Add, hwg, if_true, h1, h2, Bool.and_self]
        · simp only [AWSEnsureAthenaDbEncrypted, Set.Add]
          rw [if_neg hwg, if_neg hwg]
    rw [hrun]
    constructor
    · intro hmissing
      rw [if_pos hmissing]
      exact ⟨_, rfl, rfl, rfl, rfl⟩
    · intro hpresent
      rw [if_neg (by simp [hpresent])]

/-- Witness of C29 at an Athena workgroup whose result configuration has no
`encryption_configuration`. -/
theorem AWSEnsureAthenaDbEncrypted_inspected_witness :
    (Block.GetBlock (Block.GetBlock sample.athenaWorkgroup "configuration")
        "result_configuration" =
      if sample.strs.EqualFold (Block.TypeLabel sample.athenaWorkgroup)
          "aws_athena_workgroup" = true then
        Block.GetBlock (Block.GetBlock sample.athenaWorkgroup "configuration")
          "result_configuration"
      else some sample.athenaWorkgroup) ∧
    (Block.HasChild sample.athenaWorkgroup "configuration" = true ∧
      Block.HasChild (Block.GetBlock sample.athenaWorkgroup "configuration")
        "result_configuration" = true) ∧
    Block.MissingChild (Block.GetBlock (Block.GetBlock sample.athenaWorkgroup "configuration")
      "result_configuration") "encryption_configuration" = true ∧
    ∃ r, AWSEnsureAthenaDbEncrypted sample.strs [] sample.athenaWorkgroup = [] ++ [r] ∧
      r.Severity = severity.Error ∧
      r.Range = Block.Range (Block.GetBlock (Block.GetBlock sample.athenaWorkgroup
        "configuration") "result_configuration") ∧
      r.Description =
        "Resource \x27" ++ Block.FullName sample.athenaWorkgroup ++
          "\x27 missing encryption configuration block." :=
  have hwg : sample.strs.EqualFold (Block.TypeLabel sample.athenaWorkgroup)
      "aws_athena_workgroup" = true := by decide
  have hinspected : Block.GetBlock (Block.GetBlock sample.athenaWorkgroup "configuration")
        "result_configuration" =
      if sample.strs.EqualFold (Block.TypeLabel sample.athenaWorkgroup)
          "aws_athena_workgroup" = true then
        Block.GetBlock (Block.GetBlock sample.athenaWorkgroup "configuration")
          "result_configuration"
      else some sample.athenaWorkgroup := by
    rw [if_pos hwg]
  ⟨hinspected, ⟨rfl, rfl⟩, rfl,
    ((AWSEnsureAthenaDbEncrypted_inspected sample.strs [] sample.athenaWorkgroup _
      hinspected).2 (Or.inr ⟨rfl, rfl⟩)).1 rfl⟩

end rules

namespace formatters

open result

/-- The counting loop started at `n` ends at `n` plus the number of passed
results. -/
theorem countPassed_foldl (results : List Result) (n : Nat) :
    results.foldl (fun passed res => if res.Passed then passed + 1 else passed) n =
      n + results.countP (fun res => res.Status == Passed) := by
  induction results generalizing n with
  | nil => simp
  | cons res results ih =>
    rw [List.foldl_cons, List.countP_cons]
    by_cases h : res.Passed = true
    · have h' : (res.Status == Passed) = true := h
      rw [if_pos h, ih, if_pos h']
      omega
    · have h' : ¬ (res.Status == Passed) = true := h
      rw [if_neg h, ih, if_neg h']
      omega

/-- The function `countPassedResults` counts the results with status Passed. -/
theorem countPassedResults_eq (results : List Result) :
    countPassedResults results = results.countP (fun res => res.Status == Passed) := by
  unfold countPassedResults
  rw [countPassed_foldl]
  simp

/-- The loop over the results prints checks only. -/
theorem problemCount_printChecks (includePassedChecks : Bool) (i : Nat) (results : List Result) :
    problemCount (printChecks includePassedChecks i results) = none := by
  induction results generalizing i with
  | nil => rfl
  | cons res results ih =>
    simp only [printChecks, problemCount, List.findSome?_cons]
    exact ih (i + 1)

/-- The test of `FormatDefault` for the path without problems. -/
theorem noProblem_test (results : List Result) :
    (results.length == 0 || results.length == countPassedResults results) = true ↔
      (results = [] ∨ ∀ r ∈ results, r.Status = Passed) := by
  rw [countPassedResults_eq]
  simp only [Bool.or_eq_true, beq_iff_eq, List.length_eq_zero]
  constructor
  · rintro (h | h)
    · exact Or.inl h
    · right
      have := List.countP_eq_length.1 h.symm
      simpa using this
  · rintro (h | h)
    · exact Or.inl h
    · right
      symm
      rw [List.countP_eq_length]
      simpa using h

end formatters

namespace formatters

open result

/-- Every result either has status Passed or not. -/
theorem length_eq_passed_add_rest (results : List Result) :
    results.length = results.countP (fun res => res.Status == Passed) +
      results.countP (fun res => res.Status != Passed) := by
  induction results with
  | nil => rfl
  | cons res results ih =>
    simp only [List.length_cons, List.countP_cons, ih]
    by_cases h : (res.Status == Passed) = true
    · simp [h, bne]
      omega
    · simp [h, bne]
      omega

/-- What `FormatDefault` prints on each of its two paths. -/
theorem FormatDefault_paths (results : List Result) (options : List FormatterOption) :
    ∃ showStatistics showSuccessOutput includePassedChecks : Bool,
      FormatDefault results options =
        if (results.length == 0 || results.length == countPassedResults results) = true then
          (if showStatistics then [Printed.statistics] else []) ++
            (if showSuccessOutput then [Printed.success] else [])
        else
          printChecks includePassedChecks 0 results ++
            (if showStatistics then [Printed.statistics] else []) ++
            [Printed.problems ((results.length : Int) - (countPassedResults results : Int))] := by
  rcases hopt : readOptions options (true, true, false) with ⟨s₁, s₂, s₃⟩
  exact ⟨s₁, s₂, s₃, by simp only [FormatDefault, hopt]⟩

/-- C30 as stated fails: on a list that holds one result with status Ignored,
`FormatDefault` reports 1 potential problem, while the number of results with
status Failed is 0. -/
theorem FormatDefault_counts_ignored_as_problem :
    problemCount (FormatDefault [sample.ignoredFinding] []) = some 1 ∧
    List.countP (fun res : Result => res.Status == Failed) [sample.ignoredFinding] = 0 ∧
    ¬ (∀ (results : List Result) (options : List FormatterOption),
      ¬ (results = [] ∨ ∀ r ∈ results, r.Status = Passed) →
        problemCount (FormatDefault results options) =
          some ((results.countP (fun res => res.Status == Failed) : Nat) : Int)) := by
  have hcount : problemCount (FormatDefault [sample.ignoredFinding] []) = some 1 := by rfl
  have hfailed : List.countP (fun res : Result => res.Status == Failed)
      [sample.ignoredFinding] = 0 := by decide
  refine ⟨hcount, hfailed, ?_⟩
  intro hall
  have hnot : ¬ ([sample.ignoredFinding] = [] ∨
      ∀ r ∈ [sample.ignoredFinding], r.Status = Passed) := by
    rintro (h | h)
    · cases h
    · have := h sample.ignoredFinding (List.mem_singleton.2 rfl)
      revert this
      decide
  have := hall [sample.ignoredFinding] [] hnot
  rw [hcount, hfailed] at this
  cases this

/-- C30, amended: `FormatDefault` takes the "No problems detected" path
(printing no individual result and no problem count) if and only if the list
is empty or every result has status Passed; otherwise the number of potential
problems it reports equals the number of results whose status is not Passed,
and is at least 1. `countPassedResults` returns the number of results with
status Passed, which never exceeds the length of the list. -/
theorem FormatDefault_reports_not_passed (results : List Result)
    (options : List FormatterOption) :
    ((problemCount (FormatDefault results options) = none ∧
        printsCheck (FormatDefault results options) = false) ↔
      (results = [] ∨ ∀ r ∈ results, r.Status = Passed)) ∧
    (¬ (results = [] ∨ ∀ r ∈ results, r.Status = Passed) →
      problemCount (FormatDefault results options) =
        some ((results.countP (fun res => res.Status != Passed) : Nat) : Int) ∧
      1 ≤ results.countP (fun res => res.Status != Passed)) ∧
    countPassedResults results = results.countP (fun res => res.Status == Passed) ∧
    countPassedResults results ≤ results.length := by
  obtain ⟨s₁, s₂, s₃, hrun⟩ := FormatDefault_paths results options
  have hproblems : ¬ (results = [] ∨ ∀ r ∈ results, r.Status = Passed) →
      problemCount (FormatDefault results options) =
        some ((results.countP (fun res => res.Status != Passed) : Nat) : Int) := by
    intro hnot
    have htest : ¬ (results.length == 0 || results.length == countPassedResults results) =
        true := fun h => hnot ((noProblem_test results).1 h)
    rw [hrun, if_neg htest]
    have hn : (results.length : Int) - (countPassedResults results : Int) =
        ((results.countP (fun res => res.Status != Passed) : Nat) : Int) := by
      rw [countPassedResults_eq]
      have := length_eq_passed_add_rest results
      omega
    rw [hn]
    simp only [problemCount, List.findSome?_append]
    have hchecks := problemCount_printChecks s₃ 0 results
    simp only [problemCount] at hchecks
    rw [hchecks]
    cases s₁ <;> rfl
  refine ⟨?_, ?_, countPassedResults_eq results, ?_⟩
  · constructor
    · rintro ⟨hnone, _⟩
      by_contra hnot
      rw [hproblems hnot] at hnone
      cases hnone
    · intro h
      rw [hrun, if_pos ((noProblem_test results).2 h)]
      cases s₁ <;> cases s₂ <;> exact ⟨rfl, rfl⟩
  · intro hnot
    refine ⟨hproblems hnot, ?_⟩
    have hex : ∃ r ∈ results, r.Status ≠ Passed := by
      by_contra hno
      apply hnot
      right
      intro r hr
      by_contra hne
      exact hno ⟨r, hr, hne⟩
    obtain ⟨r, hr, hne⟩ := hex
    exact List.countP_pos_iff.2 ⟨r, hr, by simpa [bne] using hne⟩
  · rw [countPassedResults_eq]
    exact List.countP_le_length _

end formatters

end Tfsec
